import Mathlib

/-!
Verification development for the resume-generation engine of the
`ai-resume-mcp-server` (file `src/index.js`).  The JavaScript source is
shallowly embedded over `List Char` (JS strings), with JS `undefined`/
optional fields modelled by `Option` and the few fallible entry points
modelled by `Except`.  Definitions follow the source function-by-function;
doc comments cite the source symbol they embed.
-/

namespace ResumeAgent

/-- Shorthand: a Lean string literal as the `List Char` it denotes. -/
def strL (s : String) : List Char := s.toList

/-- ASCII model of `String.prototype.toLowerCase` (the knowledge-base text and
the fixed keyword vocabulary are ASCII, so the ASCII case fold is faithful
on every input the program handles). -/
def jsToLower (c : Char) : Char :=
  if 'A' ≤ c && c ≤ 'Z' then Char.ofNat (c.toNat + 32) else c

/-- ASCII model of the whitespace class used by `String.prototype.trim`. -/
def isJsSpace (c : Char) : Bool :=
  c = ' ' || c = '\t' || c = '\n' || c = '\r' || c = Char.ofNat 11 || c = Char.ofNat 12

/-- JS `String.prototype.trim`: drop leading and trailing whitespace. -/
def jsTrim (l : List Char) : List Char :=
  ((l.dropWhile isJsSpace).reverse.dropWhile isJsSpace).reverse

/-- JS `text.includes(pat)` / `regex.test(text)` for a literal pattern:
does `pat` occur as a contiguous substring of `l`? -/
def containsSub (pat : List Char) : List Char → Bool
  | [] => pat.isEmpty
  | c :: rest => pat.isPrefixOf (c :: rest) || containsSub pat rest

/-- Split `l` at the first (leftmost) occurrence of `pat`, returning the part
before and the part after the occurrence.  This is the semantics of a
leftmost regex match of a literal token (and of `indexOf`). -/
def splitFirst (pat : List Char) : List Char → Option (List Char × List Char)
  | [] => if pat.isEmpty then some ([], []) else none
  | c :: rest =>
    if pat.isPrefixOf (c :: rest) then
      some ([], (c :: rest).drop pat.length)
    else
      (splitFirst pat rest).map (fun p => (c :: p.1, p.2))

/-- JS `Array.prototype.join(sep)` on a list of strings. -/
def joinWith (sep : List Char) : List (List Char) → List Char
  | [] => []
  | [x] => x
  | x :: y :: rest => x ++ sep ++ joinWith sep (y :: rest)

/-- One pass of `String.prototype.replace(/c/g, esc)` for a single-character
pattern `c` and a plain replacement string `esc`. -/
def replaceChar (c : Char) (esc : List Char) (l : List Char) : List Char :=
  l.flatMap (fun ch => if ch = c then esc else [ch])

/-- Embeds `sanitizeLatex` (src/index.js:473-490), the chain of nine global
single-character replacements, in the order used by the source: `&`, `%`, `$`, `#`,
`^`, `~`, `_`, `{`, `}`.  Note that the five brace-introducing steps run
*before* the final two brace-escaping steps, so the braces produced for
`^` and `~` are themselves escaped again. -/
def sanitizeLatex (text : List Char) : List Char :=
  text
  |> replaceChar '&' (strL ("\\&"))
  |> replaceChar '%' (strL ("\\%"))
  |> replaceChar '$' (strL ("\\$"))
  |> replaceChar '#' (strL ("\\#"))
  |> replaceChar '^' (strL ("\\^\x7b\x7d"))
  |> replaceChar '~' (strL ("\\~\x7b\x7d"))
  |> replaceChar '_' (strL ("\\_"))
  |> replaceChar '\x7b' (strL ("\\\x7b"))
  |> replaceChar '\x7d' (strL ("\\\x7d"))

/-- Modelled from the spec claim wording (C8): the mapping that replaces each
of the nine special characters by its *literal escape form*
(`\&`, `\%`, `\$`, `\#`, `\^{}`, `\~{}`, `\_`, `\{`, `\}`) and leaves every
other character unchanged.  Used for comparison against `sanitizeLatex`. -/
def sanitizeLatexSpec (text : List Char) : List Char :=
  text.flatMap (fun ch =>
    if ch = '&' then strL ("\\&")
    else if ch = '%' then strL ("\\%")
    else if ch = '$' then strL ("\\$")
    else if ch = '#' then strL ("\\#")
    else if ch = '^' then strL ("\\^\x7b\x7d")
    else if ch = '~' then strL ("\\~\x7b\x7d")
    else if ch = '_' then strL ("\\_")
    else if ch = '\x7b' then strL ("\\\x7b")
    else if ch = '\x7d' then strL ("\\\x7d")
    else [ch])

/-- A JavaScript runtime value, as far as the guard of `sanitizeLatex`
distinguishes them (the falsy / typeof-string test at src/index.js:474). -/
inductive JsValue where
  | nullV
  | undefinedV
  | boolV (b : Bool)
  | numV (n : Int)
  | strV (s : List Char)
  deriving DecidableEq, Repr

/-- The typeof-string test: is the value a string? -/
def jsIsString : JsValue → Bool
  | .strV _ => true
  | _ => false

/-- Embeds `sanitizeLatex` applied to an arbitrary JavaScript value: the guard at
src/index.js:474-476 returns the empty string for every falsy or non-string
input (the empty string itself is falsy, and sanitizing it also yields the
empty string, so the falsy-string case agrees with the main path). -/
def sanitizeLatexJs : JsValue → List Char
  | .strV s => if s.isEmpty then [] else sanitizeLatex s
  | _ => []

/-! ## Keyword extraction and relevance scoring -/

/-- The fixed technical vocabulary of `extractJobKeywords` (src/index.js:343-350). -/
def techKeywords : List (List Char) :=
  [strL ("python"), strL ("java"), strL ("javascript"), strL ("react"), strL ("node.js"), strL ("spring boot"),
   strL ("aws"), strL ("docker"), strL ("kubernetes"), strL ("postgresql"), strL ("mongodb"), strL ("redis"),
   strL ("microservices"), strL ("api"), strL ("rest"), strL ("graphql"), strL ("ci/cd"), strL ("devops"),
   strL ("machine learning"), strL ("ai"), strL ("tensorflow"), strL ("pytorch"), strL ("cloud"),
   strL ("backend"), strL ("frontend"), strL ("full-stack"), strL ("agile"), strL ("scrum"), strL ("git"),
   strL ("linux"), strL ("oauth"), strL ("jwt"), strL ("security"), strL ("performance"), strL ("scalability")]

/-- Embeds `extractJobKeywords` (src/index.js:341-356): the members of the fixed
vocabulary that occur in the lowercased job description, in vocabulary order. -/
def extractJobKeywords (jobDescription : List Char) : List (List Char) :=
  let descriptionLower := jobDescription.map jsToLower
  techKeywords.filter (fun keyword => containsSub keyword descriptionLower)

/-- Does the pattern match at the head of `text`?  A `'.'` in the pattern
matches any single character; every other character matches literally.  This
is the JS global-regex semantics used by `calculateRelevanceScore` when it
builds a regex from the lowercased keyword, for every keyword the program can pass
(in `techKeywords` the only regex metacharacter is the dot of `node.js`). -/
def patMatchAt : List Char → List Char → Bool
  | [], _ => true
  | _ :: _, [] => false
  | p :: ps, c :: cs => (p = '.' || p = c) && patMatchAt ps cs

/-- Fuel-indexed scan counting non-overlapping, leftmost-first matches of
`pat` (with `'.'` wildcard) in the text: the length of
the JS global match of the pattern in the text.  After a match the scan
resumes right after the matched span, as the global flag does via lastIndex. -/
def countPatAux (pat : List Char) : Nat → List Char → Nat
  | 0, _ => 0
  | _ + 1, [] => 0
  | fuel + 1, c :: rest =>
    if patMatchAt pat (c :: rest) then
      1 + countPatAux pat fuel (rest.drop (pat.length - 1))
    else
      countPatAux pat fuel rest

/-- The match count computed at src/index.js:313 (global regex match, with
an unmatched pattern counting 0) for patterns whose only metacharacter is
the dot. -/
def countPatMatches (pat text : List Char) : Nat :=
  countPatAux pat (text.length + 1) text

/-- Literal-substring variant of `countPatAux`: same non-overlapping
left-to-right scan, but the pattern is matched as plain text. -/
def countLitAux (pat : List Char) : Nat → List Char → Nat
  | 0, _ => 0
  | _ + 1, [] => 0
  | fuel + 1, c :: rest =>
    if pat.isPrefixOf (c :: rest) then
      1 + countLitAux pat fuel (rest.drop (pat.length - 1))
    else
      countLitAux pat fuel rest

/-- Non-overlapping left-to-right count of literal occurrences of `pat`. -/
def countLitMatches (pat text : List Char) : Nat :=
  countLitAux pat (text.length + 1) text

/-- A work position (knowledge-base record shape consumed by
`selectRelevantExperience` / `calculateRelevanceScore`).  `technologies` and
`achievements` are optional in the data (`?.` / truthiness checks in the
source); the fields the selection code dereferences unconditionally are
modelled as present. -/
structure Duration where
  start_date : List Char
  end_date : List Char
  deriving DecidableEq, Repr

structure Position where
  company : List Char
  position : List Char
  location : List Char
  status : List Char
  duration : Duration
  description : List (List Char)
  technologies : Option (List (List Char))
  achievements : Option (List (List Char))
  deriving DecidableEq, Repr

/-- The searchable text of `calculateRelevanceScore` (src/index.js:305-309):
the three fields joined with single spaces into one string, each field
itself space-joined (absent optional fields contribute the empty string), lowercased. -/
def searchTextOf (position : Position) : List Char :=
  (joinWith (strL (" ")) position.description ++ strL (" ") ++
   joinWith (strL (" ")) (position.technologies.getD []) ++ strL (" ") ++
   joinWith (strL (" ")) (position.achievements.getD [])).map jsToLower

/-- Embeds `calculateRelevanceScore` (src/index.js:301-325): for each keyword, add
twice the number of global regex matches of the lowercased keyword in the
search text; then add 5 when the status equals Current and add 3 when the
lowercased title contains `engineer` or `developer`. -/
def calculateRelevanceScore (position : Position) (jobKeywords : List (List Char)) : Nat :=
  let searchText := searchTextOf position
  let score := jobKeywords.foldl
    (fun s keyword => s + 2 * countPatMatches (keyword.map jsToLower) searchText) 0
  let score := if position.status = strL ("Current") then score + 5 else score
  let titleLower := position.position.map jsToLower
  if containsSub (strL ("engineer")) titleLower || containsSub (strL ("developer")) titleLower then
    score + 3
  else score

/-- Modelled from the spec claim wording (C6): the score as the sum over all
keywords of `2 ×` the number of case-insensitive *literal substring*
occurrences of the keyword (counted non-overlapping, left to right) in the
joined search text, plus the two fixed position bonuses.  Used for
comparison against `calculateRelevanceScore`. -/
def claimedRelevanceScore (position : Position) (jobKeywords : List (List Char)) : Nat :=
  (jobKeywords.map
      (fun keyword => 2 * countLitMatches (keyword.map jsToLower) (searchTextOf position))).sum
  + (if position.status = strL ("Current") then 5 else 0)
  + (if containsSub (strL ("engineer")) (position.position.map jsToLower)
        || containsSub (strL ("developer")) (position.position.map jsToLower) then 3 else 0)

/-! ## Experience selection -/

/-- The generic filler text of the backfill loop (src/index.js:215). -/
def fillerBullet : List Char := strL ("significant performance improvements")

/-- The achievement lookup with fallback at src/index.js:215:
a JS index read (negative or out-of-range yields `undefined`) followed by
the `||` fallback, which also replaces a falsy (empty-string) element. -/
def jsAchLookup (achs : List (List Char)) (idx : Int) : List Char :=
  if idx < 0 then fillerBullet
  else
    match achs.get? idx.toNat with
    | some a => if a = [] then fillerBullet else a
    | none => fillerBullet

/-- One backfill bullet: `` `Achieved ${...}` `` with the index
`bulletPoints.length - pos.description.length` used by the source
(src/index.js:215). -/
def achievedBullet (achs : List (List Char)) (descLen curLen : Nat) : List Char :=
  strL ("Achieved ") ++ jsAchLookup achs ((curLen : Int) - (descLen : Int))

/-- The `while (bulletPoints.length < 3 && pos.achievements)` loop of
`selectRelevantExperience` (src/index.js:214-216), with enough fuel to run
to completion (each iteration appends one bullet, so 3 iterations always
suffice; the loop guard re-checks the length each round exactly as the
source does). -/
def bulletFill (achs : List (List Char)) (descLen : Nat) : Nat → List (List Char) → List (List Char)
  | 0, bulletPoints => bulletPoints
  | fuel + 1, bulletPoints =>
    if bulletPoints.length < 3 then
      bulletFill achs descLen fuel
        (bulletPoints ++ [achievedBullet achs descLen bulletPoints.length])
    else bulletPoints

/-- The per-position bullet construction of `selectRelevantExperience`
(src/index.js:211-221): take the first three description bullets, run the
backfill loop when `pos.achievements` is truthy (an empty array is truthy in
JS, so the loop also runs — and pads with the filler — when the achievements
list is present but empty), then `slice(0, 3)`. -/
def selectedDescription (pos : Position) : List (List Char) :=
  let bulletPoints := pos.description.take 3
  let filled :=
    match pos.achievements with
    | none => bulletPoints
    | some achs => bulletFill achs pos.description.length 3 bulletPoints
  filled.take 3

/-- Stable insertion into a list already sorted by descending score:
an element is placed before the first entry whose score is `≤` its own,
which reproduces the (stable) descending order of
`sort((a, b) => b.relevanceScore - a.relevanceScore)`. -/
def insertByScoreDesc (x : Position × Nat) : List (Position × Nat) → List (Position × Nat)
  | [] => [x]
  | y :: ys => if y.2 ≤ x.2 then x :: y :: ys else y :: insertByScoreDesc x ys

/-- Stable sort by descending relevance score (a stable sort is uniquely
determined, so this insertion sort agrees with the stable JS
`Array.prototype.sort`). -/
def sortByScoreDesc : List (Position × Nat) → List (Position × Nat)
  | [] => []
  | x :: xs => insertByScoreDesc x (sortByScoreDesc xs)

/-- The scoring map of `selectRelevantExperience` (src/index.js:202-205),
pairing each position with its relevance score. -/
def scoredPositions (positions : List Position) (jobKeywords : List (List Char)) :
    List (Position × Nat) :=
  positions.map (fun pos => (pos, calculateRelevanceScore pos jobKeywords))

/-- The sort-and-take stage of `selectRelevantExperience`
(src/index.js:208-210): sort by descending score and keep the top 4. -/
def selectTopPositions (positions : List Position) (jobDescription : List Char) : List Position :=
  let jobKeywords := extractJobKeywords jobDescription
  ((sortByScoreDesc (scoredPositions positions jobKeywords)).take 4).map Prod.fst

/-- The per-position rewrite of `selectRelevantExperience`
(src/index.js:211-221): the returned object is the position with its
`description` replaced by the constructed bullet list (the transient
`relevanceScore` field of the JS spread is dropped; no claim concerns it). -/
def transformPosition (pos : Position) : Position :=
  { pos with description := selectedDescription pos }

/-- Embeds `selectRelevantExperience` (src/index.js:197-223) over the positions
array of the work-experience file. -/
def selectRelevantExperience (positions : List Position) (jobDescription : List Char) :
    List Position :=
  (selectTopPositions positions jobDescription).map transformPosition

/-- Modelled from the spec claim wording (C3, amended): the backfilled bullet
list written directly — the description bullets followed by
`Achieved …` bullets for consecutive achievement indices `0, 1, …` until
exactly 3 bullets exist, the filler substituting for a missing (or falsy)
achievement.  Used for comparison against `selectedDescription`. -/
def backfilledBullets (desc achs : List (List Char)) : List (List Char) :=
  desc ++ (List.range (3 - desc.length)).map
    (fun k => strL ("Achieved ") ++ jsAchLookup achs (k : Int))

/-! ## Project selection -/

/-- A GitHub-project record (`projectData.project` in the source): a title
and the two alternative summary fields consumed by
`generateProjectBulletPoints` and `calculateProjectRelevanceScore`. -/
structure Project where
  title : List Char
  summary : Option (List Char)
  raw_summary : Option (List Char)
  deriving DecidableEq, Repr

/-- Embeds `project.summary || project.raw_summary` (src/index.js:276): the `||`
falls through on a missing or empty `summary`.  When both fields are absent
the source dereferences `undefined` and throws (caught by the catch-all of
`generateResume`); that unreachable-for-the-selection-claims case is modelled as
the empty string here. -/
def projectEffectiveSummary (p : Project) : List Char :=
  match p.summary with
  | some s => if s = [] then (p.raw_summary.getD []) else s
  | none => p.raw_summary.getD []

/-- Embeds `summary.split(/[.!]/)` (src/index.js:279): split at every `.` or `!`,
keeping empty fragments between adjacent separators and at the ends, as
JS `split` does. -/
def splitOnDotBang : List Char → List (List Char)
  | [] => [[]]
  | c :: rest =>
    match splitOnDotBang rest with
    | [] => [[]]
    | s :: ss => if c = '.' || c = '!' then [] :: s :: ss else (c :: s) :: ss

/-- Is some digit immediately followed by `c`?  This is exactly when the
regex `\d+%` (resp. `\d+x`) has a match. -/
def hasDigitThen (c : Char) : List Char → Bool
  | [] => false
  | [_] => false
  | a :: b :: rest => (a.isDigit && b = c) || hasDigitThen c (b :: rest)

/-- The technical-signal test of `generateProjectBulletPoints`
(src/index.js:283-285):
`/\d+%|\d+x|performance|optimization|implementation|development|architecture/`
tested against the lowercased sentence. -/
def techSignal (s : List Char) : Bool :=
  let t := s.map jsToLower
  hasDigitThen '%' t || hasDigitThen 'x' t ||
  containsSub (strL ("performance")) t || containsSub (strL ("optimization")) t ||
  containsSub (strL ("implementation")) t || containsSub (strL ("development")) t ||
  containsSub (strL ("architecture")) t

/-- The leading-asterisk cleanup (src/index.js:296): remove one leading run of
asterisks together with the whitespace run that follows it; a string not
starting with `*` is unchanged. -/
def stripLeadingStars (l : List Char) : List Char :=
  match l with
  | '*' :: _ => (l.dropWhile (fun c => c = '*')).dropWhile isJsSpace
  | _ => l

/-- The filtered sentence list of `generateProjectBulletPoints`
(src/index.js:279): fragments whose trimmed length is strictly greater
than 20. -/
def projectSentences (p : Project) : List (List Char) :=
  (splitOnDotBang (projectEffectiveSummary p)).filter (fun s => 20 < (jsTrim s).length)

/-- Embeds `generateProjectBulletPoints` (src/index.js:275-299): prefer the first
two technical-signal sentences, otherwise fall back to the first two
sentences; then trim, strip leading asterisks, drop empties and enforce at
most 2. -/
def generateProjectBulletPoints (p : Project) : List (List Char) :=
  let sentences := projectSentences p
  let technicalSentences := sentences.filter techSignal
  let bulletPoints :=
    if 2 ≤ technicalSentences.length then technicalSentences.take 2
    else sentences.take 2
  (((bulletPoints.map (fun bp => stripLeadingStars (jsTrim bp))).filter
      (fun bp => bp ≠ [])).take 2)

/-- Embeds `calculateProjectRelevanceScore` (src/index.js:327-339). -/
def calculateProjectRelevanceScore (p : Project) (jobKeywords : List (List Char)) : Nat :=
  let searchText := (projectEffectiveSummary p).map jsToLower
  jobKeywords.foldl
    (fun s keyword => s + 2 * countPatMatches (keyword.map jsToLower) searchText) 0

/-- A project as returned by `selectRelevantProjects` (src/index.js:257-267):
the record enriched with the derived GitHub URL and the generated bullets
(the transient `relevanceScore` is dropped; no claim concerns it). -/
structure SelectedProject where
  title : List Char
  githubUrl : List Char
  bulletPoints : List (List Char)
  deriving DecidableEq, Repr

/-- Stable insertion for projects, mirroring `insertByScoreDesc`. -/
def insertProjByScoreDesc (x : SelectedProject × Nat) :
    List (SelectedProject × Nat) → List (SelectedProject × Nat)
  | [] => [x]
  | y :: ys => if y.2 ≤ x.2 then x :: y :: ys else y :: insertProjByScoreDesc x ys

/-- Stable sort by descending relevance score for projects. -/
def sortProjByScoreDesc : List (SelectedProject × Nat) → List (SelectedProject × Nat)
  | [] => []
  | x :: xs => insertProjByScoreDesc x (sortProjByScoreDesc xs)

/-- Embeds `selectRelevantProjects` (src/index.js:253-273): score each project,
attach `https://github.com/Dextron04/<title>` and the generated bullets,
sort by descending score and keep the top 3. -/
def selectRelevantProjects (projects : List Project) (jobDescription : List Char) :
    List SelectedProject :=
  let jobKeywords := extractJobKeywords jobDescription
  let scored := projects.map (fun project =>
    let enriched : SelectedProject :=
      { title := project.title
        githubUrl := strL ("https://github.com/Dextron04/") ++ project.title
        bulletPoints := generateProjectBulletPoints project }
    (enriched, calculateProjectRelevanceScore project jobKeywords))
  ((sortProjByScoreDesc scored).take 3).map Prod.fst

/-! ## Skill selection -/

/-- A skill record (`skills.json` shape consumed by `selectRelevantSkills`). -/
structure Skill where
  name : List Char
  proficiency : List Char
  context : List (List Char)
  deriving DecidableEq, Repr

/-- A skill category: its declared skills, in declared order. -/
structure SkillCategory where
  skills : List Skill
  deriving DecidableEq, Repr

/-- Embeds `selectRelevantSkills` (src/index.js:225-251) over the ordered category
map (JS object iteration order is insertion order, modelled as an
association list): keep a skill when a keyword matches its name or a context
tag, or when its proficiency is Advanced/Intermediate; cap at 8 per
category; drop categories with no retained skill. -/
def selectRelevantSkills (categories : List (List Char × SkillCategory))
    (jobDescription : List Char) : List (List Char × SkillCategory) :=
  let jobKeywords := extractJobKeywords jobDescription
  (categories.map (fun entry =>
    let relevantSkillsInCategory := entry.2.skills.filter (fun skill =>
      let isRelevant := jobKeywords.any (fun keyword =>
        containsSub (keyword.map jsToLower) (skill.name.map jsToLower) ||
        skill.context.any (fun ctx => containsSub (keyword.map jsToLower) (ctx.map jsToLower)))
      let isProficient :=
        skill.proficiency = strL ("Advanced") || skill.proficiency = strL ("Intermediate")
      isRelevant || isProficient)
    (entry.1, ({ skills := relevantSkillsInCategory.take 8 } : SkillCategory)))).filter
    (fun entry => entry.2.skills.length ≠ 0)

/-! ## Template splicing

The three replacement operations of `buildLatexResume` are leftmost,
non-greedy regex replaces over chains of literal tokens separated by lazy
`.*?` gaps (with the `s` flag, so the gaps span newlines).  For such a
pattern the leftmost match is: the first occurrence of the first literal,
then the first occurrence of each following literal after the previous one —
if any stage has no later occurrence, no other choice at an earlier stage
can succeed either, so the regex fails to match and `String.replace`
returns the input unchanged.  `splitFirst` implements exactly this
first-occurrence search. -/

/-- ASCII model of `String.prototype.toUpperCase` (section names are the
ASCII literals `Experience` / `Projects`). -/
def jsToUpper (c : Char) : Char :=
  if 'a' ≤ c && c ≤ 'z' then Char.ofNat (c.toNat - 32) else c

/-- The section comment token built at src/index.js:460 from eleven dashes
on each side of the upper-cased section name. -/
def sectionComment (sectionName : List Char) : List Char :=
  strL ("%-----------") ++ sectionName.map jsToUpper ++ strL ("-----------")

/-- The literal token `\resumeItem{` opening the summary command
(src/index.js:364). -/
def riMarker : List Char := strL ("\\resumeItem\x7b")

/-- The sentinel phrase located inside the summary command
(src/index.js:364). -/
def sentinelPhrase : List Char := strL ("Software Engineer with")

/-- The literal token `\resumeSubHeadingListStart` (src/index.js:460). -/
def lsMarker : List Char := strL ("\\resumeSubHeadingListStart")

/-- The literal token `\resumeSubHeadingListEnd` (src/index.js:460). -/
def leMarker : List Char := strL ("\\resumeSubHeadingListEnd")

/-- The literal token `%------SKILLS SECTION-------` (src/index.js:468). -/
def skillsComment : List Char := strL ("%------SKILLS SECTION-------")

/-- The literal token `\section{Skills}` (src/index.js:468). -/
def skillsSectionCmd : List Char := strL ("\\section\x7bSkills\x7d")

/-- The literal token `\small` followed by a newline (src/index.js:468). -/
def smallMarker : List Char := strL ("\\small\n")

/-- The literal token newline-`\vspace{-12pt}` (src/index.js:468). -/
def vspaceMarker : List Char := strL ("\n\\vspace\x7b-12pt\x7d")

/-- Numeric value of a decimal digit character. -/
def digitValue (c : Char) : Nat := c.toNat - 48

/-- Embeds GetSubstitution (ECMAScript 22.2.7.2), the processing JS
`String.replace` applies to a *string* replacement argument — including the
text interpolated into it from dynamic data.  Scanning the replacement
template left to right: a dollar followed by a dollar emits one dollar; a
dollar followed by an ampersand emits the matched text; a dollar followed by
a backtick (code 96) emits the text before the match; a dollar followed by
an apostrophe (code 39) emits the text after the match; a dollar followed by
digits emits the n-th captured group when the two-digit number (preferred)
or else the one-digit number is a valid group index `1 ≤ n ≤ caps.length`;
any other dollar is literal (and since the character after a literal dollar
is never itself a dollar in those branches, it is emitted literally too,
exactly as the spec's resumed scan would do). -/
def getSubst (before matched after : List Char) (caps : List (List Char)) :
    List Char → List Char
  | [] => []
  | c :: rest =>
    if c = '$' then
      match rest with
      | [] => ['$']
      | d :: rest2 =>
        if d = '$' then '$' :: getSubst before matched after caps rest2
        else if d = '&' then matched ++ getSubst before matched after caps rest2
        else if d = Char.ofNat 96 then before ++ getSubst before matched after caps rest2
        else if d = Char.ofNat 39 then after ++ getSubst before matched after caps rest2
        else if d.isDigit then
          match rest2 with
          | e :: rest3 =>
            if e.isDigit = true ∧ 1 ≤ 10 * digitValue d + digitValue e ∧
                10 * digitValue d + digitValue e ≤ caps.length then
              ((caps.get? (10 * digitValue d + digitValue e - 1)).getD []) ++
                getSubst before matched after caps rest3
            else if 1 ≤ digitValue d ∧ digitValue d ≤ caps.length then
              ((caps.get? (digitValue d - 1)).getD []) ++
                getSubst before matched after caps (e :: rest3)
            else '$' :: d :: getSubst before matched after caps (e :: rest3)
          | [] =>
            if 1 ≤ digitValue d ∧ digitValue d ≤ caps.length then
              (caps.get? (digitValue d - 1)).getD []
            else ['$', d]
        else '$' :: d :: getSubst before matched after caps rest2
    else c :: getSubst before matched after caps rest

/-- The leftmost match of `/\\resumeItem\{[^}]*Software Engineer with[^}]*\}/s`
(src/index.js:363-366): scanning left to right, the first occurrence of
`\resumeItem{` whose following brace-free span (up to the next `}`) contains
the sentinel phrase.  Returns `(pre, arg, post)` with
`text = pre ++ \resumeItem{ ++ arg ++ } ++ post`.  `[^}]*` cannot cross a
`}`, so for each candidate start the matched argument necessarily extends to
the first `}`; when that span lacks the phrase the engine moves on to the
next start position, which this recursion reproduces. -/
def summaryMatch : List Char → Option (List Char × List Char × List Char)
  | [] => none
  | c :: rest =>
    if riMarker.isPrefixOf (c :: rest) then
      match splitFirst ['\x7d'] ((c :: rest).drop riMarker.length) with
      | some (arg, post) =>
        if containsSub sentinelPhrase arg then some ([], arg, post)
        else (summaryMatch rest).map (fun t => (c :: t.1, t.2))
      | none => (summaryMatch rest).map (fun t => (c :: t.1, t.2))
    else (summaryMatch rest).map (fun t => (c :: t.1, t.2))

/-- The summary replacement step of `buildLatexResume` (src/index.js:362-366):
replace the whole matched `\resumeItem{…}` command by `newSection`, processed
through the replacement-string substitution (the summary regex has no
capture groups, so only the special dollar-ampersand / backtick / apostrophe
forms are live there); when the sentinel regex has no match the content is
returned unchanged. -/
def replaceSummaryCmd (latexContent newSection : List Char) : List Char :=
  match summaryMatch latexContent with
  | none => latexContent
  | some (pre, arg, post) =>
    pre ++ getSubst pre (riMarker ++ arg ++ ['\x7d']) post [] newSection ++ post

/-- Embeds `replaceSection` (src/index.js:458-465): the leftmost match of
`(%-----------NAME-----------.*?\resumeSubHeadingListStart)(.*?)(\resumeSubHeadingListEnd)`
replaced by the template built from group 1, two newlines, the new content,
two newlines + two spaces, and group 3 — with the whole replacement string
(the interpolated content included) processed through the JS
replacement-string substitution over the three captured groups.  When the
pattern has no match, `String.replace` returns the content unchanged —
there is no error path. -/
def replaceSection (latexContent sectionName newContent : List Char) : List Char :=
  let cm := sectionComment sectionName
  match splitFirst cm latexContent with
  | none => latexContent
  | some (pre, rest1) =>
    match splitFirst lsMarker rest1 with
    | none => latexContent
    | some (gap, rest2) =>
      match splitFirst leMarker rest2 with
      | none => latexContent
      | some (inner, post) =>
        let g1 := cm ++ gap ++ lsMarker
        pre ++ getSubst pre (g1 ++ inner ++ leMarker) post [g1, inner, leMarker]
          (strL ("$1\n\n") ++ (newContent ++ strL ("\n\n  $3"))) ++ post

/-- Embeds `replaceSkillsSection` (src/index.js:467-471): the leftmost match of
`(%------SKILLS SECTION-------.*?\section{Skills}.*?\small\n)(.*?)(\n\vspace{-12pt})`
replaced by the template built from group 1, the skills content and group 3 —
with the whole replacement string (the interpolated content included)
processed through the JS replacement-string substitution over the three
captured groups.  When the pattern has no match the content is returned
unchanged — there is no error path. -/
def replaceSkillsSection (latexContent skillsContent : List Char) : List Char :=
  match splitFirst skillsComment latexContent with
  | none => latexContent
  | some (pre, rest1) =>
    match splitFirst skillsSectionCmd rest1 with
    | none => latexContent
    | some (gap1, rest2) =>
      match splitFirst smallMarker rest2 with
      | none => latexContent
      | some (gap2, rest3) =>
        match splitFirst vspaceMarker rest3 with
        | none => latexContent
        | some (inner, post) =>
          let g1 := skillsComment ++ gap1 ++ skillsSectionCmd ++ gap2 ++ smallMarker
          pre ++ getSubst pre (g1 ++ inner ++ vspaceMarker) post [g1, inner, vspaceMarker]
            (strL ("$1") ++ (skillsContent ++ strL ("$3"))) ++ post

/-- The splicing pipeline of `buildLatexResume` (src/index.js:358-381),
taking the already-rendered dynamic blocks (the outputs of
`buildExperienceSection` / `buildProjectsSection` / `buildSkillsSection`,
over which the specification quantifies): sanitize and splice the summary,
then replace the Experience, Projects and Skills regions in order. -/
def buildLatexResume (template summary experienceSection projectsSection
    skillsSection : List Char) : List Char :=
  let summarySection := riMarker ++ strL ("\n  ") ++ sanitizeLatex summary ++ strL ("\n\x7d")
  let c1 := replaceSummaryCmd template summarySection
  let c2 := replaceSection c1 (strL ("Experience")) experienceSection
  let c3 := replaceSection c2 (strL ("Projects")) projectsSection
  replaceSkillsSection c3 skillsSection

/-- Remove the argument of the summary command (the dynamic span located by the
same sentinel matcher the splicer uses). -/
def stripSummarySpan (t : List Char) : List Char :=
  match summaryMatch t with
  | none => t
  | some (pre, _, post) => pre ++ riMarker ++ ['\x7d'] ++ post

/-- Remove the inner span of a `replaceSection` region (located by the same
marker chain the splicer uses). -/
def stripSectionSpan (t sectionName : List Char) : List Char :=
  let cm := sectionComment sectionName
  match splitFirst cm t with
  | none => t
  | some (pre, rest1) =>
    match splitFirst lsMarker rest1 with
    | none => t
    | some (gap, rest2) =>
      match splitFirst leMarker rest2 with
      | none => t
      | some (_, post) => pre ++ cm ++ gap ++ lsMarker ++ leMarker ++ post

/-- Remove the inner span of the Skills region (located by the same marker
chain the splicer uses). -/
def stripSkillsSpan (t : List Char) : List Char :=
  match splitFirst skillsComment t with
  | none => t
  | some (pre, rest1) =>
    match splitFirst skillsSectionCmd rest1 with
    | none => t
    | some (gap1, rest2) =>
      match splitFirst smallMarker rest2 with
      | none => t
      | some (gap2, rest3) =>
        match splitFirst vspaceMarker rest3 with
        | none => t
        | some (_, post) =>
          pre ++ skillsComment ++ gap1 ++ skillsSectionCmd ++ gap2 ++ smallMarker ++
            vspaceMarker ++ post

/-- Remove the inner span of every dynamic region — summary argument, Experience
inner span, Projects inner span, Skills inner span — locating each with the
matchers of the splicer itself, in the same order the splicer uses.  This is the
remove-the-replaced-inner-spans operation of the frame property. -/
def stripDynamicRegions (t : List Char) : List Char :=
  stripSkillsSpan
    (stripSectionSpan (stripSectionSpan (stripSummarySpan t) (strL ("Experience")))
      (strL ("Projects")))

/-! ## Section rendering -/

/-- Embeds `buildExperienceSection` (src/index.js:383-397). -/
def buildExperienceSection (experiences : List Position) : List Char :=
  joinWith (strL ("\n\n")) (experiences.map (fun exp =>
    let bulletPoints := joinWith (strL ("\n")) (exp.description.map (fun desc =>
      strL ("        \\resumeItem\x7b") ++ sanitizeLatex desc ++ strL ("\x7d")))
    strL ("    \\resumeSubheading\n      \x7b") ++ sanitizeLatex exp.company ++
      strL ("\x7d\x7b") ++ sanitizeLatex exp.duration.start_date ++ strL (" -- ") ++
      sanitizeLatex exp.duration.end_date ++ strL ("\x7d\n      \x7b") ++
      sanitizeLatex exp.position ++ strL ("\x7d\x7b") ++ sanitizeLatex exp.location ++
      strL ("\x7d\n      \\resumeItemListStart\n") ++ bulletPoints ++
      strL ("\n      \\resumeItemListEnd\n      \\vspace\x7b-3pt\x7d")))

/-- Embeds `buildProjectsSection` (src/index.js:399-412). -/
def buildProjectsSection (projects : List SelectedProject) : List Char :=
  joinWith (strL ("\n\n")) (projects.map (fun project =>
    let bulletPoints := joinWith (strL ("\n")) (project.bulletPoints.map (fun bp =>
      strL ("        \\resumeItem\x7b") ++ sanitizeLatex bp ++ strL ("\x7d")))
    strL ("\\resumeProjectHeading\n    \x7b\\textbf\x7b") ++ sanitizeLatex project.title ++
      strL ("\x7d \\href\x7b") ++ project.githubUrl ++
      strL ("\x7d\x7b[\\underline\x7bLink to GitHub\x7d]\x7d\x7d\x7b\x7d\n    \\resumeItemListStart\n") ++
      bulletPoints ++ strL ("\n    \\resumeItemListEnd\n    \\vspace\x7b-3pt\x7d")))

/-- Embeds `extractSkillNames` (src/index.js:451-456). -/
def extractSkillNames (skillCategories : List (List Char × SkillCategory))
    (categoryKey : List Char) : List (List Char) :=
  match skillCategories.find? (fun entry => entry.1 = categoryKey) with
  | none => []
  | some entry => entry.2.skills.map Skill.name

/-- Embeds `buildSkillsSection` (src/index.js:414-449): up to four labelled lines,
joined by `" \\"` + newline. -/
def buildSkillsSection (skillCategories : List (List Char × SkillCategory)) : List Char :=
  let programmingSkills := extractSkillNames skillCategories (strL ("programming_languages"))
  let webSkills := extractSkillNames skillCategories (strL ("web_technologies"))
  let cloudSkills := extractSkillNames skillCategories (strL ("cloud_technologies"))
  let databaseSkills := extractSkillNames skillCategories (strL ("databases"))
  let toolSkills := extractSkillNames skillCategories (strL ("tools_and_systems"))
  let specializedSkills := extractSkillNames skillCategories (strL ("specialized_technologies"))
  let skillLines :=
    (if programmingSkills.length ≠ 0 then
      [strL ("\\textbf\x7bProgramming Languages:\x7d ") ++
        joinWith (strL (", ")) (programmingSkills.map sanitizeLatex)]
     else []) ++
    (if webSkills.length ≠ 0 then
      [strL ("\\textbf\x7bFrontend \\& Backend:\x7d ") ++
        joinWith (strL (", ")) (webSkills.map sanitizeLatex)]
     else []) ++
    (if (cloudSkills ++ databaseSkills).length ≠ 0 then
      [strL ("\\textbf\x7bDatabases \\& Cloud:\x7d ") ++
        joinWith (strL (", ")) ((databaseSkills ++ cloudSkills).map sanitizeLatex)]
     else []) ++
    (if (toolSkills ++ specializedSkills).length ≠ 0 then
      [strL ("\\textbf\x7bAI/ML \\& Tools:\x7d ") ++
        joinWith (strL (", ")) ((toolSkills ++ specializedSkills).map sanitizeLatex)]
     else [])
  joinWith (strL (" \\\\\n")) skillLines

/-! ## The generation pipeline (`generateResume`) -/

/-- The `profile_summary.career_highlights` fields read by
`generateTailoredSummary`. -/
structure CareerHighlights where
  total_experience : List Char
  key_achievements : List (List Char)
  deriving DecidableEq, Repr

/-- The `profile_summary.technical_expertise` fields read by
`generateTailoredSummary`. -/
structure TechnicalExpertise where
  strongest_areas : List (List Char)
  deriving DecidableEq, Repr

/-- The `profile_summary` object; its two sub-objects may be absent in the
loaded JSON, in which case dereferencing them throws a `TypeError`. -/
structure ProfileSummary where
  career_highlights : Option CareerHighlights
  technical_expertise : Option TechnicalExpertise
  deriving DecidableEq, Repr

/-- The profile file; `profile.profile_summary` may be absent. -/
structure Profile where
  profile_summary : Option ProfileSummary
  deriving DecidableEq, Repr

/-- The `TypeError` message produced by dereferencing a missing field. -/
def typeErrorMsg : List Char := strL ("Cannot read properties of undefined")

/-- Embeds `generateTailoredSummary` (src/index.js:178-195): fallible because it
dereferences optional knowledge-base objects; on success it assembles the
fixed summary sentence. -/
def generateTailoredSummary (profile : Profile) (jobDescription jobTitle : List Char) :
    Except (List Char) (List Char) :=
  match profile.profile_summary with
  | none => .error typeErrorMsg
  | some ps =>
    match ps.career_highlights, ps.technical_expertise with
    | none, _ => .error typeErrorMsg
    | _, none => .error typeErrorMsg
    | some baseHighlights, some techExpertise =>
      let jobKeywords := extractJobKeywords jobDescription
      let relevantAchievements := baseHighlights.key_achievements.take 2
      let relevantTech := (techExpertise.strongest_areas.filter (fun area =>
        jobKeywords.any (fun keyword =>
          containsSub (keyword.map jsToLower) (area.map jsToLower)))).take 3
      .ok (jobTitle ++ strL (" with ") ++ baseHighlights.total_experience ++
        strL (" full-stack development experience specializing in ") ++
        joinWith (strL (", ")) relevantTech ++ strL (". ") ++
        joinWith (strL (" and ")) relevantAchievements ++
        strL (" across enterprise applications. Expertise in scalable system design, team leadership, and agile development methodologies."))

/-- The `work_experience` wrapper object of `work_experience.json`. -/
structure WorkExperienceData where
  positions : List Position
  deriving DecidableEq, Repr

/-- The work-experience file; the wrapper may be absent. -/
structure WorkExperienceFile where
  work_experience : Option WorkExperienceData
  deriving DecidableEq, Repr

/-- The `skills` wrapper object of `skills.json`. -/
structure SkillsData where
  categories : List (List Char × SkillCategory)
  deriving DecidableEq, Repr

/-- The skills file; the wrapper may be absent. -/
structure SkillsFile where
  skills : Option SkillsData
  deriving DecidableEq, Repr

/-- The outcome of the five knowledge-base loads awaited by
`Promise.all` at src/index.js:128-134: each read may reject (missing file,
bad JSON), in which case `Promise.all` rejects and the `await` throws.
Each project file is modelled by its `project` record. -/
structure KbOutcome where
  profile : Except (List Char) Profile
  workExp : Except (List Char) WorkExperienceFile
  skills : Except (List Char) SkillsFile
  projects : Except (List Char) (List Project)
  template : Except (List Char) (List Char)
  deriving Repr

/-- The résumé metadata object (src/index.js:158-166); the wall-clock
`generatedAt` timestamp is outside the embedding. -/
structure Metadata where
  jobTitle : List Char
  experienceCount : Nat
  projectCount : Nat
  skillCategories : List (List Char)
  atsOptimized : Bool
  singlePage : Bool
  deriving DecidableEq, Repr

/-- The body of `generateResume` *without* its `try`/`catch`
(src/index.js:126-167): every awaited rejection and every `TypeError` from a
missing knowledge-base field propagates as an `Except.error`. -/
def generateResumeRaw (kb : KbOutcome) (jobDescription jobTitle : List Char) :
    Except (List Char) (List Char × Metadata) := do
  let profile ← kb.profile
  let workExp ← kb.workExp
  let skills ← kb.skills
  let projects ← kb.projects
  let template ← kb.template
  let tailoredSummary ← generateTailoredSummary profile jobDescription jobTitle
  let positions ←
    match workExp.work_experience with
    | none => Except.error typeErrorMsg
    | some w => Except.ok w.positions
  let relevantExperience := selectRelevantExperience positions jobDescription
  let categories ←
    match skills.skills with
    | none => Except.error typeErrorMsg
    | some s => Except.ok s.categories
  let relevantSkills := selectRelevantSkills categories jobDescription
  let relevantProjects := selectRelevantProjects projects jobDescription
  let latexContent := buildLatexResume template tailoredSummary
    (buildExperienceSection relevantExperience)
    (buildProjectsSection relevantProjects)
    (buildSkillsSection relevantSkills)
  .ok (latexContent,
    { jobTitle := jobTitle
      experienceCount := relevantExperience.length
      projectCount := relevantProjects.length
      skillCategories := relevantSkills.map Prod.fst
      atsOptimized := true
      singlePage := true })

/-- The value `generateResume` resolves to (src/index.js:155-175): either the
success record with the LaTeX content and metadata, or the failure record
with the error message. -/
inductive GenerateResult where
  | success (latexContent : List Char) (metadata : Metadata)
  | failure (error : List Char)
  deriving Repr

/-- Embeds `generateResume` (src/index.js:124-176): the whole body runs inside
`try`/`catch`; the catch converts any internal exception to the
`success: false` record, so the returned promise always resolves. -/
def generateResume (kb : KbOutcome) (jobDescription jobTitle : List Char) : GenerateResult :=
  match generateResumeRaw kb jobDescription jobTitle with
  | .ok r => .success r.1 r.2
  | .error e => .failure e

/-! ## Tool handlers -/

/-- The externally observable phases of the two generation tool handlers,
in execution order: input validation, knowledge-base loading (the first
thing `generateResume` awaits), generation, PDF conversion. -/
inductive ServerStep where
  | validationError
  | knowledgeBaseLoad
  | generation
  | pdfConversion
  deriving DecidableEq, Repr

/-- Embeds `handleGenerateResume` (src/index.js:850-857): the handler throws the
validation error when `jobDescription` is falsy or blank, *before* calling
`generateResume` (whose first act is the knowledge-base `Promise.all`). -/
def handleGenerateResumeSteps (jobDescription : List Char) :
    Except (List Char) (List ServerStep) :=
  if jobDescription = [] || (jsTrim jobDescription).length = 0 then
    .error (strL ("Job description is required and cannot be empty"))
  else
    .ok [.knowledgeBaseLoad, .generation]

/-- Embeds `handleGenerateAndConvertResume` (src/index.js:920-935): the handler
destructures its arguments and immediately calls `generateResume` — there is
no validation of `jobDescription` in its body, so the knowledge-base load is
always the first step regardless of the input. -/
def handleGenerateAndConvertResumeSteps ( _jobDescription : List Char) :
    Except (List Char) (List ServerStep) :=
  .ok [.knowledgeBaseLoad, .generation, .pdfConversion]

/-! ## Infrastructure: the first-occurrence search -/

theorem containsSub_infix_iff (pat l : List Char) : containsSub pat l = true ↔ pat <:+: l := by
  induction l with
  | nil => simp [containsSub, List.isEmpty_iff]
  | cons c rest ih =>
    simp [containsSub, List.infix_cons_iff, ih, List.isPrefixOf_iff_prefix, or_comm]

theorem containsSub_eq_false_cons {pat : List Char} {c : Char} {rest : List Char}
    (h : containsSub pat (c :: rest) = false) : containsSub pat rest = false := by
  have hh : (pat.isPrefixOf (c :: rest) || containsSub pat rest) = false := h
  exact (Bool.or_eq_false_iff.mp hh).2

theorem take_eq_of_common_front {l₁ l₂ : List Char} (h : l₁ <+: l₂) {n : Nat}
    (hn : n ≤ l₁.length) : l₂.take n = l₁.take n := by
  obtain ⟨t, rfl⟩ := h
  rw [List.take_append_eq_append_take, Nat.sub_eq_zero_of_le hn, List.take_zero,
    List.append_nil]

theorem contains_of_early_prefix {pat : List Char} {c : Char} {x y : List Char}
    (hp : pat.isPrefixOf (c :: (x ++ (pat ++ y))) = true) :
    containsSub pat ((c :: x) ++ pat.dropLast) = true := by
  rcases eq_or_ne pat [] with rfl | hne
  · simp [containsSub]
  · rw [List.isPrefixOf_iff_prefix] at hp
    rw [containsSub_infix_iff]
    apply List.IsPrefix.isInfix
    have hpre2 : (c :: x) ++ pat.dropLast <+: c :: (x ++ (pat ++ y)) := by
      refine ⟨pat.getLast hne :: y, ?_⟩
      have hd : pat.dropLast ++ [pat.getLast hne] = pat := List.dropLast_append_getLast hne
      simp only [List.cons_append, List.append_assoc, List.cons_inj_right]
      have hstep : pat.dropLast ++ pat.getLast hne :: y = pat ++ y := by
        calc pat.dropLast ++ pat.getLast hne :: y
            = (pat.dropLast ++ [pat.getLast hne]) ++ y := by simp
          _ = pat ++ y := by rw [hd]
      rw [hstep]
    have hlen : pat.length ≤ ((c :: x) ++ pat.dropLast).length := by
      have : 1 ≤ pat.length := List.length_pos.mpr hne
      simp only [List.length_append, List.length_cons, List.length_dropLast]
      omega
    rw [List.prefix_iff_eq_take] at hp ⊢
    rwa [take_eq_of_common_front hpre2 hlen] at hp

theorem splitFirst_append_of_not_contains (pat x y : List Char) (hne : pat ≠ [])
    (h : containsSub pat (x ++ pat.dropLast) = false) :
    splitFirst pat (x ++ (pat ++ y)) = some (x, y) := by
  induction x with
  | nil =>
    obtain ⟨p, ps, rfl⟩ : ∃ p ps, pat = p :: ps := by
      cases pat with
      | nil => exact absurd rfl hne
      | cons a as => exact ⟨a, as, rfl⟩
    rw [List.nil_append, List.cons_append, splitFirst]
    have hpre : (p :: ps).isPrefixOf (p :: (ps ++ y)) = true := by
      rw [List.isPrefixOf_iff_prefix, ← List.cons_append]
      exact List.prefix_append _ _
    rw [hpre]
    simp only [if_true]
    rw [← List.cons_append, List.drop_left]
  | cons c x' ih =>
    rw [List.cons_append, splitFirst]
    have hnp : pat.isPrefixOf (c :: (x' ++ (pat ++ y))) = false := by
      by_contra hcon
      have htrue : pat.isPrefixOf (c :: (x' ++ (pat ++ y))) = true :=
        Bool.not_eq_false _ ▸ hcon
      have := contains_of_early_prefix htrue
      rw [List.cons_append] at h
      rw [List.cons_append] at this
      exact absurd this (by rw [h]; exact Bool.false_ne_true)
    rw [hnp]
    simp only [if_false, Bool.false_eq_true]
    have hrest : containsSub pat (x' ++ pat.dropLast) = false := by
      rw [List.cons_append] at h
      exact containsSub_eq_false_cons h
    rw [ih hrest]
    rfl

theorem containsSub_of_middle {pat x m y : List Char} (hm : containsSub pat m = true) :
    containsSub pat (x ++ (m ++ y)) = true := by
  rw [containsSub_infix_iff] at hm ⊢
  exact hm.trans ⟨x, y, by simp [List.append_assoc]⟩

/-! ## Behaviour of the replacement-string substitution -/

theorem getSubst_nil (b m a : List Char) (caps : List (List Char)) :
    getSubst b m a caps [] = [] := rfl

theorem getSubst_cons_ne (b m a : List Char) (caps : List (List Char)) (c : Char)
    (t : List Char) (hc : c ≠ '$') :
    getSubst b m a caps (c :: t) = c :: getSubst b m a caps t := by
  conv_lhs => rw [getSubst.eq_def]
  simp [hc]

theorem getSubst_append_no_dollar (b m a : List Char) (caps : List (List Char))
    (x t : List Char) (hx : '$' ∉ x) :
    getSubst b m a caps (x ++ t) = x ++ getSubst b m a caps t := by
  induction x with
  | nil => simp
  | cons c x' ih =>
    have hc : c ≠ '$' := fun h => hx (h ▸ List.mem_cons_self _ _)
    have hx' : '$' ∉ x' := fun h => hx (List.mem_cons_of_mem _ h)
    rw [List.cons_append, getSubst_cons_ne _ _ _ _ _ _ hc, ih hx', List.cons_append]

theorem getSubst_no_dollar (b m a : List Char) (caps : List (List Char))
    (t : List Char) (ht : '$' ∉ t) : getSubst b m a caps t = t := by
  have h := getSubst_append_no_dollar b m a caps t [] ht
  simpa [getSubst_nil] using h

theorem getSubst_dollar_one (b m a g1 g2 g3 : List Char) (c2 : Char) (t : List Char) :
    getSubst b m a [g1, g2, g3] ('$' :: '1' :: c2 :: t)
      = g1 ++ getSubst b m a [g1, g2, g3] (c2 :: t) := by
  have hd1 : digitValue '1' = 1 := by decide
  have hno2 : ¬(c2.isDigit = true ∧ 1 ≤ 10 * digitValue '1' + digitValue c2 ∧
      10 * digitValue '1' + digitValue c2 ≤ ([g1, g2, g3] : List (List Char)).length) := by
    rintro ⟨-, -, hC⟩
    rw [hd1] at hC
    simp only [List.length_cons, List.length_nil] at hC
    omega
  conv_lhs => rw [getSubst.eq_def]
  simp [hno2, hd1]
  intro _ _ h2
  exact absurd h2 (by omega)

theorem getSubst_dollar_three_nil (b m a g1 g2 g3 : List Char) :
    getSubst b m a [g1, g2, g3] ['$', '3'] = g3 := by
  have hd3 : digitValue '3' = 3 := by decide
  conv_lhs => rw [getSubst.eq_def]
  simp [hd3]

theorem getSubst_section_template (b m a g1 g2 g3 c : List Char) (hc : '$' ∉ c) :
    getSubst b m a [g1, g2, g3] (strL ("$1\n\n") ++ (c ++ strL ("\n\n  $3")))
      = g1 ++ (strL ("\n\n") ++ (c ++ (strL ("\n\n  ") ++ g3))) := by
  have h1 : strL ("$1\n\n") ++ (c ++ strL ("\n\n  $3"))
      = '$' :: '1' :: '\n' :: '\n' :: (c ++ strL ("\n\n  $3")) := rfl
  rw [h1, getSubst_dollar_one]
  rw [getSubst_cons_ne _ _ _ _ _ _ (by decide), getSubst_cons_ne _ _ _ _ _ _ (by decide)]
  rw [getSubst_append_no_dollar _ _ _ _ _ _ hc]
  have h2 : strL ("\n\n  $3") = '\n' :: '\n' :: ' ' :: ' ' :: ['$', '3'] := rfl
  rw [h2, getSubst_cons_ne _ _ _ _ _ _ (by decide), getSubst_cons_ne _ _ _ _ _ _ (by decide),
    getSubst_cons_ne _ _ _ _ _ _ (by decide), getSubst_cons_ne _ _ _ _ _ _ (by decide),
    getSubst_dollar_three_nil]
  rfl

theorem getSubst_skills_template (b m a g1 g2 g3 k : List Char) (hk : '$' ∉ k) :
    getSubst b m a [g1, g2, g3] (strL ("$1") ++ (k ++ strL ("$3"))) = g1 ++ (k ++ g3) := by
  cases k with
  | nil =>
    have h1 : strL ("$1") ++ (([] : List Char) ++ strL ("$3")) = '$' :: '1' :: '$' :: ['3'] :=
      rfl
    rw [h1, getSubst_dollar_one, show ('$' :: ['3'] : List Char) = ['$', '3'] from rfl,
      getSubst_dollar_three_nil]
    rfl
  | cons kh kt =>
    have h1 : strL ("$1") ++ ((kh :: kt) ++ strL ("$3"))
        = '$' :: '1' :: kh :: (kt ++ strL ("$3")) := rfl
    rw [h1, getSubst_dollar_one,
      show (kh :: (kt ++ strL ("$3"))) = (kh :: kt) ++ strL ("$3") from rfl,
      getSubst_append_no_dollar _ _ _ _ _ _ hk,
      show strL ("$3") = ['$', '3'] from rfl, getSubst_dollar_three_nil]

/-! ## Structured behaviour of the splicing operations -/

theorem summaryMatch_eq (pre arg post : List Char)
    (hpre : containsSub riMarker (pre ++ riMarker.dropLast) = false)
    (harg : containsSub ['\x7d'] arg = false)
    (hph : containsSub sentinelPhrase arg = true) :
    summaryMatch (pre ++ (riMarker ++ (arg ++ (['\x7d'] ++ post)))) = some (pre, arg, post) := by
  induction pre with
  | nil =>
    have hri : riMarker = '\\' :: strL ("resumeItem\x7b") := by decide
    rw [List.nil_append]
    conv_lhs => rw [hri, List.cons_append]
    rw [summaryMatch]
    have hpre1 : riMarker.isPrefixOf ('\\' :: (strL ("resumeItem\x7b") ++ (arg ++ (['\x7d'] ++ post)))) = true := by
      rw [← List.cons_append, ← hri, List.isPrefixOf_iff_prefix]
      exact List.prefix_append _ _
    rw [hpre1]
    simp only [if_true]
    have hdrop : ('\\' :: (strL ("resumeItem\x7b") ++ (arg ++ (['\x7d'] ++ post)))).drop riMarker.length
        = arg ++ (['\x7d'] ++ post) := by
      rw [← List.cons_append, ← hri, List.drop_left]
    rw [hdrop]
    have hsp : splitFirst ['\x7d'] (arg ++ (['\x7d'] ++ post)) = some (arg, post) := by
      apply splitFirst_append_of_not_contains _ _ _ (by decide)
      simpa using harg
    rw [hsp]
    simp [hph]
  | cons c pre' ih =>
    rw [List.cons_append, summaryMatch]
    have hnp : riMarker.isPrefixOf (c :: (pre' ++ (riMarker ++ (arg ++ (['\x7d'] ++ post))))) = false := by
      by_contra hcon
      have htrue := Bool.not_eq_false _ ▸ hcon
      have := contains_of_early_prefix htrue
      rw [List.cons_append] at hpre
      exact absurd this (by rw [List.cons_append, hpre]; exact Bool.false_ne_true)
    rw [hnp]
    simp only [if_false, Bool.false_eq_true]
    have hrest : containsSub riMarker (pre' ++ riMarker.dropLast) = false := by
      rw [List.cons_append] at hpre
      exact containsSub_eq_false_cons hpre
    rw [ih hrest]
    rfl

theorem replaceSummaryCmd_eq (pre arg post newArg : List Char)
    (hpre : containsSub riMarker (pre ++ riMarker.dropLast) = false)
    (harg : containsSub ['\x7d'] arg = false)
    (hph : containsSub sentinelPhrase arg = true)
    (hnd : '$' ∉ newArg) :
    replaceSummaryCmd (pre ++ (riMarker ++ (arg ++ (['\x7d'] ++ post))))
        (riMarker ++ (newArg ++ ['\x7d']))
      = pre ++ (riMarker ++ (newArg ++ (['\x7d'] ++ post))) := by
  simp only [replaceSummaryCmd, summaryMatch_eq pre arg post hpre harg hph]
  rw [getSubst_no_dollar]
  · simp [List.append_assoc]
  · intro h
    rcases List.mem_append.mp h with h | h
    · revert h
      decide
    · rcases List.mem_append.mp h with h | h
      · exact hnd h
      · revert h
        decide

theorem stripSummarySpan_eq (pre arg post : List Char)
    (hpre : containsSub riMarker (pre ++ riMarker.dropLast) = false)
    (harg : containsSub ['\x7d'] arg = false)
    (hph : containsSub sentinelPhrase arg = true) :
    stripSummarySpan (pre ++ (riMarker ++ (arg ++ (['\x7d'] ++ post))))
      = pre ++ (riMarker ++ (['\x7d'] ++ post)) := by
  rw [stripSummarySpan, summaryMatch_eq pre arg post hpre harg hph]
  simp [List.append_assoc]

theorem replaceSection_eq (name A g inner post c : List Char)
    (hname : sectionComment name ≠ [])
    (hA : containsSub (sectionComment name) (A ++ (sectionComment name).dropLast) = false)
    (hg : containsSub lsMarker (g ++ lsMarker.dropLast) = false)
    (hi : containsSub leMarker (inner ++ leMarker.dropLast) = false)
    (hdc : '$' ∉ c) :
    replaceSection (A ++ (sectionComment name ++ (g ++ (lsMarker ++ (inner ++ (leMarker ++ post))))))
        name c
      = A ++ (sectionComment name ++ (g ++ (lsMarker ++ (strL ("\n\n") ++ (c ++ (strL ("\n\n  ") ++ (leMarker ++ post))))))) := by
  have e1 := splitFirst_append_of_not_contains (sectionComment name) A
    (g ++ (lsMarker ++ (inner ++ (leMarker ++ post)))) hname hA
  have e2 := splitFirst_append_of_not_contains lsMarker g
    (inner ++ (leMarker ++ post)) (by decide) hg
  have e3 := splitFirst_append_of_not_contains leMarker inner post (by decide) hi
  simp only [replaceSection, e1, e2, e3]
  rw [getSubst_section_template _ _ _ _ _ _ _ hdc]
  simp [List.append_assoc]

theorem stripSectionSpan_eq (name A g inner post : List Char)
    (hname : sectionComment name ≠ [])
    (hA : containsSub (sectionComment name) (A ++ (sectionComment name).dropLast) = false)
    (hg : containsSub lsMarker (g ++ lsMarker.dropLast) = false)
    (hi : containsSub leMarker (inner ++ leMarker.dropLast) = false) :
    stripSectionSpan (A ++ (sectionComment name ++ (g ++ (lsMarker ++ (inner ++ (leMarker ++ post))))))
        name
      = A ++ (sectionComment name ++ (g ++ (lsMarker ++ (leMarker ++ post)))) := by
  have e1 := splitFirst_append_of_not_contains (sectionComment name) A
    (g ++ (lsMarker ++ (inner ++ (leMarker ++ post)))) hname hA
  have e2 := splitFirst_append_of_not_contains lsMarker g
    (inner ++ (leMarker ++ post)) (by decide) hg
  have e3 := splitFirst_append_of_not_contains leMarker inner post (by decide) hi
  simp only [stripSectionSpan, e1, e2, e3]
  simp [List.append_assoc]

theorem replaceSkillsSection_eq (A g1 g2 inner post c : List Char)
    (hA : containsSub skillsComment (A ++ skillsComment.dropLast) = false)
    (hg1 : containsSub skillsSectionCmd (g1 ++ skillsSectionCmd.dropLast) = false)
    (hg2 : containsSub smallMarker (g2 ++ smallMarker.dropLast) = false)
    (hi : containsSub vspaceMarker (inner ++ vspaceMarker.dropLast) = false)
    (hdc : '$' ∉ c) :
    replaceSkillsSection
        (A ++ (skillsComment ++ (g1 ++ (skillsSectionCmd ++ (g2 ++ (smallMarker ++ (inner ++ (vspaceMarker ++ post))))))))
        c
      = A ++ (skillsComment ++ (g1 ++ (skillsSectionCmd ++ (g2 ++ (smallMarker ++ (c ++ (vspaceMarker ++ post))))))) := by
  have e1 := splitFirst_append_of_not_contains skillsComment A
    (g1 ++ (skillsSectionCmd ++ (g2 ++ (smallMarker ++ (inner ++ (vspaceMarker ++ post))))))
    (by decide) hA
  have e2 := splitFirst_append_of_not_contains skillsSectionCmd g1
    (g2 ++ (smallMarker ++ (inner ++ (vspaceMarker ++ post)))) (by decide) hg1
  have e3 := splitFirst_append_of_not_contains smallMarker g2
    (inner ++ (vspaceMarker ++ post)) (by decide) hg2
  have e4 := splitFirst_append_of_not_contains vspaceMarker inner post (by decide) hi
  simp only [replaceSkillsSection, e1, e2, e3, e4]
  rw [getSubst_skills_template _ _ _ _ _ _ _ hdc]
  simp [List.append_assoc]

theorem stripSkillsSpan_eq (A g1 g2 inner post : List Char)
    (hA : containsSub skillsComment (A ++ skillsComment.dropLast) = false)
    (hg1 : containsSub skillsSectionCmd (g1 ++ skillsSectionCmd.dropLast) = false)
    (hg2 : containsSub smallMarker (g2 ++ smallMarker.dropLast) = false)
    (hi : containsSub vspaceMarker (inner ++ vspaceMarker.dropLast) = false) :
    stripSkillsSpan
        (A ++ (skillsComment ++ (g1 ++ (skillsSectionCmd ++ (g2 ++ (smallMarker ++ (inner ++ (vspaceMarker ++ post))))))))
      = A ++ (skillsComment ++ (g1 ++ (skillsSectionCmd ++ (g2 ++ (smallMarker ++ (vspaceMarker ++ post)))))) := by
  have e1 := splitFirst_append_of_not_contains skillsComment A
    (g1 ++ (skillsSectionCmd ++ (g2 ++ (smallMarker ++ (inner ++ (vspaceMarker ++ post))))))
    (by decide) hA
  have e2 := splitFirst_append_of_not_contains skillsSectionCmd g1
    (g2 ++ (smallMarker ++ (inner ++ (vspaceMarker ++ post)))) (by decide) hg1
  have e3 := splitFirst_append_of_not_contains smallMarker g2
    (inner ++ (vspaceMarker ++ post)) (by decide) hg2
  have e4 := splitFirst_append_of_not_contains vspaceMarker inner post (by decide) hi
  simp only [stripSkillsSpan, e1, e2, e3, e4]
  simp [List.append_assoc]

/-! ## Well-formed templates -/

/-- The Experience section comment token. -/
def expComment : List Char := sectionComment (strL ("Experience"))

/-- The Projects section comment token. -/
def projComment : List Char := sectionComment (strL ("Projects"))

/-- A document containing all four named regions in the canonical order:
literal context parts `u0 … u8` around the summary argument `argS` and the
three inner spans `eSpan`/`pSpan`/`kSpan`. -/
def mkDoc (u0 argS u1 u2 eSpan u3 u4 pSpan u5 u6 u7 kSpan u8 : List Char) : List Char :=
  u0 ++ riMarker ++ argS ++ ['\x7d'] ++ u1 ++ expComment ++ u2 ++ lsMarker ++ eSpan ++
  leMarker ++ u3 ++ projComment ++ u4 ++ lsMarker ++ pSpan ++ leMarker ++ u5 ++
  skillsComment ++ u6 ++ skillsSectionCmd ++ u7 ++ smallMarker ++ kSpan ++ vspaceMarker ++ u8

theorem replaceSummaryCmd_mkDoc (u0 aS u1 u2 eS u3 u4 pS u5 u6 u7 kS u8 newArg : List Char)
    (hpre : containsSub riMarker (u0 ++ riMarker.dropLast) = false)
    (harg : containsSub ['\x7d'] aS = false)
    (hph : containsSub sentinelPhrase aS = true)
    (hnd : '$' ∉ newArg) :
    replaceSummaryCmd (mkDoc u0 aS u1 u2 eS u3 u4 pS u5 u6 u7 kS u8)
        (riMarker ++ (newArg ++ ['\x7d']))
      = mkDoc u0 newArg u1 u2 eS u3 u4 pS u5 u6 u7 kS u8 := by
  have hconv : mkDoc u0 aS u1 u2 eS u3 u4 pS u5 u6 u7 kS u8
      = u0 ++ (riMarker ++ (aS ++ (['\x7d'] ++
          (u1 ++ expComment ++ u2 ++ lsMarker ++ eS ++ leMarker ++ u3 ++ projComment ++ u4 ++
           lsMarker ++ pS ++ leMarker ++ u5 ++ skillsComment ++ u6 ++ skillsSectionCmd ++ u7 ++
           smallMarker ++ kS ++ vspaceMarker ++ u8)))) := by
    simp [mkDoc, List.append_assoc]
  rw [hconv, replaceSummaryCmd_eq _ _ _ _ hpre harg hph hnd]
  simp [mkDoc, List.append_assoc]

theorem stripSummarySpan_mkDoc (u0 aS u1 u2 eS u3 u4 pS u5 u6 u7 kS u8 : List Char)
    (hpre : containsSub riMarker (u0 ++ riMarker.dropLast) = false)
    (harg : containsSub ['\x7d'] aS = false)
    (hph : containsSub sentinelPhrase aS = true) :
    stripSummarySpan (mkDoc u0 aS u1 u2 eS u3 u4 pS u5 u6 u7 kS u8)
      = mkDoc u0 [] u1 u2 eS u3 u4 pS u5 u6 u7 kS u8 := by
  have hconv : mkDoc u0 aS u1 u2 eS u3 u4 pS u5 u6 u7 kS u8
      = u0 ++ (riMarker ++ (aS ++ (['\x7d'] ++
          (u1 ++ expComment ++ u2 ++ lsMarker ++ eS ++ leMarker ++ u3 ++ projComment ++ u4 ++
           lsMarker ++ pS ++ leMarker ++ u5 ++ skillsComment ++ u6 ++ skillsSectionCmd ++ u7 ++
           smallMarker ++ kS ++ vspaceMarker ++ u8)))) := by
    simp [mkDoc, List.append_assoc]
  rw [hconv, stripSummarySpan_eq _ _ _ hpre harg hph]
  simp [mkDoc, List.append_assoc]

theorem replaceSection_exp_mkDoc (u0 aS u1 u2 eS u3 u4 pS u5 u6 u7 kS u8 c : List Char)
    (hA : containsSub expComment
      ((u0 ++ riMarker ++ aS ++ ['\x7d'] ++ u1) ++ expComment.dropLast) = false)
    (hg : containsSub lsMarker (u2 ++ lsMarker.dropLast) = false)
    (hi : containsSub leMarker (eS ++ leMarker.dropLast) = false)
    (hdc : '$' ∉ c) :
    replaceSection (mkDoc u0 aS u1 u2 eS u3 u4 pS u5 u6 u7 kS u8) (strL ("Experience")) c
      = mkDoc u0 aS u1 u2 (strL ("\n\n") ++ c ++ strL ("\n\n  ")) u3 u4 pS u5 u6 u7 kS u8 := by
  have hconv : mkDoc u0 aS u1 u2 eS u3 u4 pS u5 u6 u7 kS u8
      = (u0 ++ riMarker ++ aS ++ ['\x7d'] ++ u1) ++ (sectionComment (strL ("Experience")) ++
          (u2 ++ (lsMarker ++ (eS ++ (leMarker ++
          (u3 ++ projComment ++ u4 ++ lsMarker ++ pS ++ leMarker ++ u5 ++ skillsComment ++ u6 ++
           skillsSectionCmd ++ u7 ++ smallMarker ++ kS ++ vspaceMarker ++ u8)))))) := by
    simp [mkDoc, expComment, List.append_assoc]
  rw [hconv, replaceSection_eq _ _ _ _ _ _ (by decide)
    (by simpa [expComment] using hA) hg hi hdc]
  simp [mkDoc, expComment, List.append_assoc]

theorem stripSectionSpan_exp_mkDoc (u0 aS u1 u2 eS u3 u4 pS u5 u6 u7 kS u8 : List Char)
    (hA : containsSub expComment
      ((u0 ++ riMarker ++ aS ++ ['\x7d'] ++ u1) ++ expComment.dropLast) = false)
    (hg : containsSub lsMarker (u2 ++ lsMarker.dropLast) = false)
    (hi : containsSub leMarker (eS ++ leMarker.dropLast) = false) :
    stripSectionSpan (mkDoc u0 aS u1 u2 eS u3 u4 pS u5 u6 u7 kS u8) (strL ("Experience"))
      = mkDoc u0 aS u1 u2 [] u3 u4 pS u5 u6 u7 kS u8 := by
  have hconv : mkDoc u0 aS u1 u2 eS u3 u4 pS u5 u6 u7 kS u8
      = (u0 ++ riMarker ++ aS ++ ['\x7d'] ++ u1) ++ (sectionComment (strL ("Experience")) ++
          (u2 ++ (lsMarker ++ (eS ++ (leMarker ++
          (u3 ++ projComment ++ u4 ++ lsMarker ++ pS ++ leMarker ++ u5 ++ skillsComment ++ u6 ++
           skillsSectionCmd ++ u7 ++ smallMarker ++ kS ++ vspaceMarker ++ u8)))))) := by
    simp [mkDoc, expComment, List.append_assoc]
  rw [hconv, stripSectionSpan_eq _ _ _ _ _ (by decide)
    (by simpa [expComment] using hA) hg hi]
  simp [mkDoc, expComment, List.append_assoc]

theorem replaceSection_proj_mkDoc (u0 aS u1 u2 eS u3 u4 pS u5 u6 u7 kS u8 c : List Char)
    (hA : containsSub projComment
      ((u0 ++ riMarker ++ aS ++ ['\x7d'] ++ u1 ++ expComment ++ u2 ++ lsMarker ++ eS ++
        leMarker ++ u3) ++ projComment.dropLast) = false)
    (hg : containsSub lsMarker (u4 ++ lsMarker.dropLast) = false)
    (hi : containsSub leMarker (pS ++ leMarker.dropLast) = false)
    (hdc : '$' ∉ c) :
    replaceSection (mkDoc u0 aS u1 u2 eS u3 u4 pS u5 u6 u7 kS u8) (strL ("Projects")) c
      = mkDoc u0 aS u1 u2 eS u3 u4 (strL ("\n\n") ++ c ++ strL ("\n\n  ")) u5 u6 u7 kS u8 := by
  have hconv : mkDoc u0 aS u1 u2 eS u3 u4 pS u5 u6 u7 kS u8
      = (u0 ++ riMarker ++ aS ++ ['\x7d'] ++ u1 ++ expComment ++ u2 ++ lsMarker ++ eS ++
          leMarker ++ u3) ++ (sectionComment (strL ("Projects")) ++
          (u4 ++ (lsMarker ++ (pS ++ (leMarker ++
          (u5 ++ skillsComment ++ u6 ++ skillsSectionCmd ++ u7 ++ smallMarker ++ kS ++
           vspaceMarker ++ u8)))))) := by
    simp [mkDoc, projComment, List.append_assoc]
  rw [hconv, replaceSection_eq _ _ _ _ _ _ (by decide)
    (by simpa [projComment] using hA) hg hi hdc]
  simp [mkDoc, projComment, List.append_assoc]

theorem stripSectionSpan_proj_mkDoc (u0 aS u1 u2 eS u3 u4 pS u5 u6 u7 kS u8 : List Char)
    (hA : containsSub projComment
      ((u0 ++ riMarker ++ aS ++ ['\x7d'] ++ u1 ++ expComment ++ u2 ++ lsMarker ++ eS ++
        leMarker ++ u3) ++ projComment.dropLast) = false)
    (hg : containsSub lsMarker (u4 ++ lsMarker.dropLast) = false)
    (hi : containsSub leMarker (pS ++ leMarker.dropLast) = false) :
    stripSectionSpan (mkDoc u0 aS u1 u2 eS u3 u4 pS u5 u6 u7 kS u8) (strL ("Projects"))
      = mkDoc u0 aS u1 u2 eS u3 u4 [] u5 u6 u7 kS u8 := by
  have hconv : mkDoc u0 aS u1 u2 eS u3 u4 pS u5 u6 u7 kS u8
      = (u0 ++ riMarker ++ aS ++ ['\x7d'] ++ u1 ++ expComment ++ u2 ++ lsMarker ++ eS ++
          leMarker ++ u3) ++ (sectionComment (strL ("Projects")) ++
          (u4 ++ (lsMarker ++ (pS ++ (leMarker ++
          (u5 ++ skillsComment ++ u6 ++ skillsSectionCmd ++ u7 ++ smallMarker ++ kS ++
           vspaceMarker ++ u8)))))) := by
    simp [mkDoc, projComment, List.append_assoc]
  rw [hconv, stripSectionSpan_eq _ _ _ _ _ (by decide)
    (by simpa [projComment] using hA) hg hi]
  simp [mkDoc, projComment, List.append_assoc]

theorem replaceSkillsSection_mkDoc (u0 aS u1 u2 eS u3 u4 pS u5 u6 u7 kS u8 c : List Char)
    (hA : containsSub skillsComment
      ((u0 ++ riMarker ++ aS ++ ['\x7d'] ++ u1 ++ expComment ++ u2 ++ lsMarker ++ eS ++
        leMarker ++ u3 ++ projComment ++ u4 ++ lsMarker ++ pS ++ leMarker ++ u5) ++
        skillsComment.dropLast) = false)
    (hg1 : containsSub skillsSectionCmd (u6 ++ skillsSectionCmd.dropLast) = false)
    (hg2 : containsSub smallMarker (u7 ++ smallMarker.dropLast) = false)
    (hi : containsSub vspaceMarker (kS ++ vspaceMarker.dropLast) = false)
    (hdc : '$' ∉ c) :
    replaceSkillsSection (mkDoc u0 aS u1 u2 eS u3 u4 pS u5 u6 u7 kS u8) c
      = mkDoc u0 aS u1 u2 eS u3 u4 pS u5 u6 u7 c u8 := by
  have hconv : mkDoc u0 aS u1 u2 eS u3 u4 pS u5 u6 u7 kS u8
      = (u0 ++ riMarker ++ aS ++ ['\x7d'] ++ u1 ++ expComment ++ u2 ++ lsMarker ++ eS ++
          leMarker ++ u3 ++ projComment ++ u4 ++ lsMarker ++ pS ++ leMarker ++ u5) ++
          (skillsComment ++ (u6 ++ (skillsSectionCmd ++ (u7 ++ (smallMarker ++ (kS ++
          (vspaceMarker ++ u8))))))) := by
    simp [mkDoc, List.append_assoc]
  rw [hconv, replaceSkillsSection_eq _ _ _ _ _ _ hA hg1 hg2 hi hdc]
  simp [mkDoc, List.append_assoc]

theorem stripSkillsSpan_mkDoc (u0 aS u1 u2 eS u3 u4 pS u5 u6 u7 kS u8 : List Char)
    (hA : containsSub skillsComment
      ((u0 ++ riMarker ++ aS ++ ['\x7d'] ++ u1 ++ expComment ++ u2 ++ lsMarker ++ eS ++
        leMarker ++ u3 ++ projComment ++ u4 ++ lsMarker ++ pS ++ leMarker ++ u5) ++
        skillsComment.dropLast) = false)
    (hg1 : containsSub skillsSectionCmd (u6 ++ skillsSectionCmd.dropLast) = false)
    (hg2 : containsSub smallMarker (u7 ++ smallMarker.dropLast) = false)
    (hi : containsSub vspaceMarker (kS ++ vspaceMarker.dropLast) = false) :
    stripSkillsSpan (mkDoc u0 aS u1 u2 eS u3 u4 pS u5 u6 u7 kS u8)
      = mkDoc u0 aS u1 u2 eS u3 u4 pS u5 u6 u7 [] u8 := by
  have hconv : mkDoc u0 aS u1 u2 eS u3 u4 pS u5 u6 u7 kS u8
      = (u0 ++ riMarker ++ aS ++ ['\x7d'] ++ u1 ++ expComment ++ u2 ++ lsMarker ++ eS ++
          leMarker ++ u3 ++ projComment ++ u4 ++ lsMarker ++ pS ++ leMarker ++ u5) ++
          (skillsComment ++ (u6 ++ (skillsSectionCmd ++ (u7 ++ (smallMarker ++ (kS ++
          (vspaceMarker ++ u8))))))) := by
    simp [mkDoc, List.append_assoc]
  rw [hconv, stripSkillsSpan_eq _ _ _ _ _ hA hg1 hg2 hi]
  simp [mkDoc, List.append_assoc]

/-- Non-interference side conditions for splicing into a well-formed
template: no marker token occurs before its intended position in the
template or in any intermediate document of the splice/strip pipelines
(i.e. the rendered blocks and the sanitized summary do not smuggle marker
tokens ahead of the real regions), the summary argument is brace-free, the
sentinel phrase occurs in both the old and the new summary argument, and the
rendered blocks and the sanitized summary contain no dollar character (so
the replacement-string substitution of JS `String.replace` inserts them
verbatim instead of expanding capture-group or match references).  Every
conjunct is a decidable check on concrete strings. -/
abbrev spliceSafe (u0 sarg u1 u2 e0 u3 u4 p0 u5 u6 u7 k0 u8 s e p k : List Char) : Prop :=
  containsSub riMarker (u0 ++ riMarker.dropLast) = false ∧
  containsSub ['\x7d'] sarg = false ∧
  containsSub sentinelPhrase sarg = true ∧
  containsSub ['\x7d'] (strL ("\n  ") ++ sanitizeLatex s ++ strL ("\n")) = false ∧
  containsSub sentinelPhrase (strL ("\n  ") ++ sanitizeLatex s ++ strL ("\n")) = true ∧
  containsSub expComment
    ((u0 ++ riMarker ++ (strL ("\n  ") ++ sanitizeLatex s ++ strL ("\n")) ++ ['\x7d'] ++ u1) ++
      expComment.dropLast) = false ∧
  containsSub expComment
    ((u0 ++ riMarker ++ ([] : List Char) ++ ['\x7d'] ++ u1) ++ expComment.dropLast) = false ∧
  containsSub lsMarker (u2 ++ lsMarker.dropLast) = false ∧
  containsSub leMarker (e0 ++ leMarker.dropLast) = false ∧
  containsSub leMarker ((strL ("\n\n") ++ e ++ strL ("\n\n  ")) ++ leMarker.dropLast) = false ∧
  containsSub projComment
    ((u0 ++ riMarker ++ (strL ("\n  ") ++ sanitizeLatex s ++ strL ("\n")) ++ ['\x7d'] ++ u1 ++
      expComment ++ u2 ++ lsMarker ++ (strL ("\n\n") ++ e ++ strL ("\n\n  ")) ++ leMarker ++ u3) ++
      projComment.dropLast) = false ∧
  containsSub projComment
    ((u0 ++ riMarker ++ ([] : List Char) ++ ['\x7d'] ++ u1 ++ expComment ++ u2 ++ lsMarker ++
      ([] : List Char) ++ leMarker ++ u3) ++ projComment.dropLast) = false ∧
  containsSub lsMarker (u4 ++ lsMarker.dropLast) = false ∧
  containsSub leMarker (p0 ++ leMarker.dropLast) = false ∧
  containsSub leMarker ((strL ("\n\n") ++ p ++ strL ("\n\n  ")) ++ leMarker.dropLast) = false ∧
  containsSub skillsComment
    ((u0 ++ riMarker ++ (strL ("\n  ") ++ sanitizeLatex s ++ strL ("\n")) ++ ['\x7d'] ++ u1 ++
      expComment ++ u2 ++ lsMarker ++ (strL ("\n\n") ++ e ++ strL ("\n\n  ")) ++ leMarker ++ u3 ++
      projComment ++ u4 ++ lsMarker ++ (strL ("\n\n") ++ p ++ strL ("\n\n  ")) ++ leMarker ++ u5) ++
      skillsComment.dropLast) = false ∧
  containsSub skillsComment
    ((u0 ++ riMarker ++ ([] : List Char) ++ ['\x7d'] ++ u1 ++ expComment ++ u2 ++ lsMarker ++
      ([] : List Char) ++ leMarker ++ u3 ++ projComment ++ u4 ++ lsMarker ++
      ([] : List Char) ++ leMarker ++ u5) ++ skillsComment.dropLast) = false ∧
  containsSub skillsSectionCmd (u6 ++ skillsSectionCmd.dropLast) = false ∧
  containsSub smallMarker (u7 ++ smallMarker.dropLast) = false ∧
  containsSub vspaceMarker (k0 ++ vspaceMarker.dropLast) = false ∧
  containsSub vspaceMarker (k ++ vspaceMarker.dropLast) = false ∧
  ('$' ∉ strL ("\n  ") ++ sanitizeLatex s ++ strL ("\n")) ∧
  ('$' ∉ e) ∧ ('$' ∉ p) ∧ ('$' ∉ k)

theorem buildLatexResume_stripDynamicRegions_frame
    (u0 sarg u1 u2 e0 u3 u4 p0 u5 u6 u7 k0 u8 s e p k : List Char)
    (hsafe : spliceSafe u0 sarg u1 u2 e0 u3 u4 p0 u5 u6 u7 k0 u8 s e p k) :
    stripDynamicRegions
        (buildLatexResume (mkDoc u0 sarg u1 u2 e0 u3 u4 p0 u5 u6 u7 k0 u8) s e p k)
      = stripDynamicRegions (mkDoc u0 sarg u1 u2 e0 u3 u4 p0 u5 u6 u7 k0 u8) := by
  obtain ⟨h1, h2, h3, h4, h5, h6, h7, h8, h9, h10, h11, h12, h13, h14, h15, h16, h17, h18,
    h19, h20, h21, h22, h23, h24, h25⟩ := hsafe
  have hsec : riMarker ++ strL ("\n  ") ++ sanitizeLatex s ++ strL ("\n\x7d")
      = riMarker ++ ((strL ("\n  ") ++ sanitizeLatex s ++ strL ("\n")) ++ ['\x7d']) := by
    simp [List.append_assoc, (by decide : strL ("\n\x7d") = strL ("\n") ++ ['\x7d'])]
  simp only [buildLatexResume]
  rw [hsec]
  rw [replaceSummaryCmd_mkDoc _ _ _ _ _ _ _ _ _ _ _ _ _ _ h1 h2 h3 h22]
  rw [replaceSection_exp_mkDoc _ _ _ _ _ _ _ _ _ _ _ _ _ _ h6 h8 h9 h23]
  rw [replaceSection_proj_mkDoc _ _ _ _ _ _ _ _ _ _ _ _ _ _ h11 h13 h14 h24]
  rw [replaceSkillsSection_mkDoc _ _ _ _ _ _ _ _ _ _ _ _ _ _ h16 h18 h19 h20 h25]
  simp only [stripDynamicRegions]
  rw [stripSummarySpan_mkDoc _ _ _ _ _ _ _ _ _ _ _ _ _ h1 h4 h5]
  rw [stripSectionSpan_exp_mkDoc _ _ _ _ _ _ _ _ _ _ _ _ _ h7 h8 h10]
  rw [stripSectionSpan_proj_mkDoc _ _ _ _ _ _ _ _ _ _ _ _ _ h12 h13 h15]
  rw [stripSkillsSpan_mkDoc _ _ _ _ _ _ _ _ _ _ _ _ _ h17 h18 h19 h21]
  rw [stripSummarySpan_mkDoc _ _ _ _ _ _ _ _ _ _ _ _ _ h1 h2 h3]
  rw [stripSectionSpan_exp_mkDoc _ _ _ _ _ _ _ _ _ _ _ _ _ h7 h8 h9]
  rw [stripSectionSpan_proj_mkDoc _ _ _ _ _ _ _ _ _ _ _ _ _ h12 h13 h14]
  rw [stripSkillsSpan_mkDoc _ _ _ _ _ _ _ _ _ _ _ _ _ h17 h18 h19 h20]

/-! ## Helper lemmas for the claims -/

/-- Number of achievement strings, with an absent list counting as zero. -/
def achievementsLen (pos : Position) : Nat := (pos.achievements.getD []).length

theorem bulletFill_of_three_le (achs : List (List Char)) (d fuel : Nat)
    (bps : List (List Char)) (h : 3 ≤ bps.length) : bulletFill achs d fuel bps = bps := by
  cases fuel with
  | zero => rfl
  | succ n => simp [bulletFill, Nat.not_lt.mpr h]

theorem bulletFill_length (achs : List (List Char)) (d : Nat) :
    ∀ (fuel : Nat) (bps : List (List Char)), bps.length < 3 → 3 ≤ bps.length + fuel →
      (bulletFill achs d fuel bps).length = 3 := by
  intro fuel
  induction fuel with
  | zero => intro bps h1 h2; omega
  | succ n ih =>
    intro bps h1 h2
    rw [bulletFill, if_pos h1]
    by_cases h3 : (bps ++ [achievedBullet achs d bps.length]).length < 3
    · exact ih _ h3 (by simp at h3 ⊢; omega)
    · rw [bulletFill_of_three_le _ _ _ _ (Nat.not_lt.mp h3)]
      simp at h3 ⊢
      omega

theorem foldl_add_sum (f : List Char → Nat) (l : List (List Char)) (n : Nat) :
    l.foldl (fun s k => s + f k) n = n + (l.map f).sum := by
  induction l generalizing n with
  | nil => simp
  | cons a t ih => simp [List.foldl_cons, ih, Nat.add_assoc]

theorem patMatchAt_eq_isPrefixOf (pat : List Char) (h : '.' ∉ pat) :
    ∀ t, patMatchAt pat t = pat.isPrefixOf t := by
  induction pat with
  | nil => intro t; cases t <;> rfl
  | cons p ps ih =>
    intro t
    cases t with
    | nil => rfl
    | cons c cs =>
      have hp : (p = '.') = False := by
        simp only [eq_iff_iff, iff_false]
        exact fun he => h (he ▸ List.mem_cons_self _ _)
      have hps : '.' ∉ ps := fun hm => h (List.mem_cons_of_mem _ hm)
      have hbe : (p == c) = decide (p = c) := by
        by_cases hx : p = c <;> simp [hx]
      simp [patMatchAt, List.isPrefixOf, ih hps, hp, hbe]

theorem countPatAux_eq_countLitAux (pat : List Char) (h : '.' ∉ pat) :
    ∀ (fuel : Nat) (t : List Char), countPatAux pat fuel t = countLitAux pat fuel t := by
  intro fuel
  induction fuel with
  | zero => intro t; rfl
  | succ n ih =>
    intro t
    cases t with
    | nil => rfl
    | cons c cs => simp [countPatAux, countLitAux, patMatchAt_eq_isPrefixOf pat h, ih]

theorem countPatMatches_eq_countLitMatches (pat text : List Char) (h : '.' ∉ pat) :
    countPatMatches pat text = countLitMatches pat text := by
  rw [countPatMatches, countLitMatches, countPatAux_eq_countLitAux pat h]

/-! ## Claim theorems -/

set_option maxRecDepth 100000

/-- C1: the claim states that splicing into a template whose region markers
are absent fails loudly with a distinct template-contract error.  The code
has no such error path: `String.replace` with an unmatched pattern returns
its input, so `buildLatexResume` (via `replaceSection` /
`replaceSkillsSection` and the summary replace) silently returns the
template with every region left unmodified.  This theorem evaluates the
embedded code at a markerless template and exhibits the silent no-op. -/
theorem buildLatexResume_silent_on_missing_markers :
    buildLatexResume (strL ("plain document with no region markers"))
        (strL ("summary")) (strL ("exp")) (strL ("proj")) (strL ("skills"))
      = strL ("plain document with no region markers") ∧
    replaceSection (strL ("plain document with no region markers"))
        (strL ("Experience")) (strL ("exp"))
      = strL ("plain document with no region markers") := by
  constructor <;> decide

/-- C2: every position selected by `selectRelevantExperience` whose combined
description + achievements count is at least 3 is returned with exactly 3
bullet strings in its `description`. -/
theorem selected_position_exactly_three_bullets
    (positions : List Position) (jobDescription : List Char) (pos : Position)
    (hmem : pos ∈ selectTopPositions positions jobDescription)
    (hcomb : 3 ≤ pos.description.length + achievementsLen pos) :
    transformPosition pos ∈ selectRelevantExperience positions jobDescription ∧
    (transformPosition pos).description.length = 3 := by
  refine ⟨List.mem_map_of_mem _ hmem, ?_⟩
  show (selectedDescription pos).length = 3
  cases hach : pos.achievements with
  | none =>
    have hdl : 3 ≤ pos.description.length := by
      have : achievementsLen pos = 0 := by simp [achievementsLen, hach]
      omega
    simp [selectedDescription, hach, List.length_take]
    omega
  | some achs =>
    simp only [selectedDescription, hach]
    by_cases hd : pos.description.length < 3
    · have h1 : (pos.description.take 3).length < 3 := by
        simp [List.length_take]; omega
      have h2 := bulletFill_length achs pos.description.length 3 (pos.description.take 3)
        h1 (by omega)
      simp [List.length_take, h2]
    · have h3 : 3 ≤ (pos.description.take 3).length := by
        simp [List.length_take]; omega
      rw [bulletFill_of_three_le _ _ _ _ h3]
      simp [List.length_take]
      omega

/-- The concrete position used to instantiate C2. -/
def c2pos : Position :=
  { company := strL ("Acme"), position := strL ("Software Engineer"), location := strL ("SF")
    status := strL ("Current")
    duration := { start_date := strL ("Jan 2024"), end_date := strL ("Present") }
    description := [strL ("built the react frontend"), strL ("ran the deployment pipeline")]
    technologies := none
    achievements := some [strL ("cut page load time in half")] }

/-- Witness for C2 at a concrete knowledge base and job description. -/
theorem selected_position_exactly_three_bullets_witness :
    c2pos ∈ selectTopPositions [c2pos] (strL ("react developer")) ∧
    3 ≤ c2pos.description.length + achievementsLen c2pos ∧
    (transformPosition c2pos ∈ selectRelevantExperience [c2pos] (strL ("react developer")) ∧
      (transformPosition c2pos).description.length = 3) :=
  ⟨by decide, by decide,
    selected_position_exactly_three_bullets [c2pos] (strL ("react developer")) c2pos
      (by decide) (by decide)⟩

/-- The concrete position refuting C3: no description bullets and a present
but empty achievements list. -/
def c3pos : Position :=
  { company := strL ("Acme"), position := strL ("intern"), location := strL ("SF")
    status := strL ("Completed")
    duration := { start_date := strL ("Jan"), end_date := strL ("Feb") }
    description := []
    technologies := none
    achievements := some [] }

/-- C3 counterexample: with the achievements list present but exhausted, the
claim demands fewer than 3 bullets and no text from outside the record; the
code instead pads to exactly 3 bullets with the generic filler, which occurs
nowhere in the record. -/
theorem selectRelevantExperience_filler_counterexample :
    selectRelevantExperience [c3pos] [] =
      [{ c3pos with description :=
          [strL ("Achieved significant performance improvements"),
           strL ("Achieved significant performance improvements"),
           strL ("Achieved significant performance improvements")] }] ∧
    ((strL ("Achieved significant performance improvements")) ∉ c3pos.description ∧
      (strL ("significant performance improvements")) ∉ c3pos.achievements.getD []) := by
  constructor <;> decide

/-- C3 as amended: for a selected position with fewer than 3 description
bullets, the bullet list is the description followed by `Achieved …` bullets
drawn from consecutive achievements until exactly 3 exist — with the generic
filler substituted once the achievements run out (or for a falsy achievement
string); only when the achievements field is absent does the loop not run and
the degraded fewer-than-3 list is returned. -/
theorem selectedDescription_backfill_characterization (pos : Position)
    (h : pos.description.length < 3) :
    selectedDescription pos =
      match pos.achievements with
      | none => pos.description
      | some achs => backfilledBullets pos.description achs := by
  cases hach : pos.achievements with
  | none =>
    simp only [selectedDescription, hach]
    rw [List.take_take]
    exact List.take_of_length_le (by omega)
  | some achs =>
    rcases hdesc : pos.description with _ | ⟨a, _ | ⟨b, _ | ⟨cc, rest⟩⟩⟩
    · simp only [selectedDescription, hach, hdesc]
      have hr : List.range 3 = [0, 1, 2] := by decide
      simp [bulletFill, backfilledBullets, achievedBullet, hr]
    · simp only [selectedDescription, hach, hdesc]
      have hr : List.range 2 = [0, 1] := by decide
      simp [bulletFill, backfilledBullets, achievedBullet, hr]
    · simp only [selectedDescription, hach, hdesc]
      have hr : List.range 1 = [0] := by decide
      simp [bulletFill, backfilledBullets, achievedBullet, hr]
    · exfalso
      rw [hdesc] at h
      simp at h
      omega

/-- The concrete position used to instantiate the amended C3. -/
def c3wpos : Position :=
  { company := strL ("Acme"), position := strL ("intern"), location := strL ("SF")
    status := strL ("Completed")
    duration := { start_date := strL ("Jan"), end_date := strL ("Feb") }
    description := [strL ("one existing bullet")]
    technologies := none
    achievements := some [strL ("shipped the feature")] }

/-- Witness for the amended C3. -/
theorem selectedDescription_backfill_characterization_witness :
    c3wpos.description.length < 3 ∧
    selectedDescription c3wpos =
      (match c3wpos.achievements with
       | none => c3wpos.description
       | some achs => backfilledBullets c3wpos.description achs) :=
  ⟨by decide, selectedDescription_backfill_characterization c3wpos (by decide)⟩

/-- C5: the claim states both generation entry points reject an empty or
blank job description before any knowledge-base load.  `handleGenerateResume`
does (first conjunct), but `handleGenerateAndConvertResume` performs no
validation at all: on the empty string its first step is the knowledge-base
load and it proceeds through generation and PDF conversion. -/
theorem handleGenerateAndConvertResume_skips_validation :
    handleGenerateResumeSteps [] =
      .error (strL ("Job description is required and cannot be empty")) ∧
    handleGenerateAndConvertResumeSteps [] =
      .ok [.knowledgeBaseLoad, .generation, .pdfConversion] :=
  ⟨rfl, rfl⟩

/-- C8: the claim states each caret appears in the output as `\^{}` (and each
tilde as `\~{}`).  Because the brace-escaping replacements run after the
caret/tilde replacements, the code double-escapes the inserted braces and
returns `\^\{\}` instead.  This theorem evaluates the code at the failing
input `"^"` and contrasts it with the claimed escape mapping. -/
theorem sanitizeLatex_caret_double_escaped :
    sanitizeLatex (strL ("^")) = strL ("\\^\\\x7b\\\x7d") ∧
    sanitizeLatexSpec (strL ("^")) = strL ("\\^\x7b\x7d") ∧
    sanitizeLatex (strL ("^")) ≠ sanitizeLatexSpec (strL ("^")) ∧
    sanitizeLatex (strL ("~")) = strL ("\\~\\\x7b\\\x7d") := by
  refine ⟨by decide, by decide, by decide, by decide⟩

/-- C9: `generateResume` never rejects — every outcome of the knowledge-base
loads and every internal dereference failure is converted by the
`try`/`catch` into the `success: false` record, so the result is always
either a success value carrying LaTeX content and metadata or a failure
value carrying an error message. -/
theorem generateResume_total (kb : KbOutcome) (jobDescription jobTitle : List Char) :
    (∃ latex meta, generateResume kb jobDescription jobTitle =
      GenerateResult.success latex meta) ∨
    (∃ msg, generateResume kb jobDescription jobTitle = GenerateResult.failure msg) := by
  cases h : generateResumeRaw kb jobDescription jobTitle with
  | ok r => exact Or.inl ⟨r.1, r.2, by simp [generateResume, h]⟩
  | error msg => exact Or.inr ⟨msg, by simp [generateResume, h]⟩

/-- C10: for every falsy or non-string input, `sanitizeLatex` returns the
empty string rather than throwing. -/
theorem sanitizeLatexJs_empty_on_non_string (v : JsValue) (h : jsIsString v = false) :
    sanitizeLatexJs v = [] := by
  cases v <;> simp_all [sanitizeLatexJs, jsIsString]

/-- Witness for C10 at the `null` input. -/
theorem sanitizeLatexJs_empty_on_non_string_witness :
    jsIsString JsValue.nullV = false ∧ sanitizeLatexJs JsValue.nullV = [] :=
  ⟨rfl, sanitizeLatexJs_empty_on_non_string JsValue.nullV rfl⟩

/-- The concrete position refuting C6: the keyword `node.js` is compiled as
a regex, so its dot matches the `x` of `nodexjs`. -/
def c6pos : Position :=
  { company := strL ("c"), position := strL ("intern"), location := strL ("l")
    status := strL ("Completed")
    duration := { start_date := strL ("a"), end_date := strL ("b") }
    description := [strL ("nodexjs")]
    technologies := none
    achievements := none }

/-- C6 counterexample: on a position whose text contains `nodexjs` and the
keyword set `[node.js]`, the code scores 2 (one regex match, dot as
wildcard) while the claimed literal-substring formula scores 0. -/
theorem calculateRelevanceScore_regex_counterexample :
    calculateRelevanceScore c6pos [strL ("node.js")] = 2 ∧
    claimedRelevanceScore c6pos [strL ("node.js")] = 0 := by
  constructor <;> decide

/-- C6 as amended: for every keyword set in which no keyword contains a `'.'`
(after lowercasing, which cannot introduce one), the score is exactly the
sum over all keywords of twice the number of non-overlapping left-to-right
case-insensitive literal occurrences in the joined text, plus 5 when the
status tag is `Current`, plus 3 when the title contains engineer/developer. -/
theorem calculateRelevanceScore_matches_claimed (pos : Position)
    (keywords : List (List Char))
    (h : ∀ kw ∈ keywords, ('.') ∉ kw.map jsToLower) :
    calculateRelevanceScore pos keywords = claimedRelevanceScore pos keywords := by
  simp only [calculateRelevanceScore, claimedRelevanceScore]
  rw [foldl_add_sum]
  simp only [Nat.zero_add]
  have hmap : keywords.map
        (fun keyword => 2 * countPatMatches (keyword.map jsToLower) (searchTextOf pos))
      = keywords.map
        (fun keyword => 2 * countLitMatches (keyword.map jsToLower) (searchTextOf pos)) := by
    apply List.map_congr_left
    intro kw hkw
    rw [countPatMatches_eq_countLitMatches _ _ (h kw hkw)]
  rw [hmap]
  by_cases h5 : pos.status = strL ("Current") <;>
    by_cases h3 : (containsSub (strL ("engineer")) (pos.position.map jsToLower) ||
      containsSub (strL ("developer")) (pos.position.map jsToLower)) = true <;>
    simp [h5, h3] <;> omega

/-- Witness for the amended C6. -/
theorem calculateRelevanceScore_matches_claimed_witness :
    (∀ kw ∈ [strL ("react"), strL ("aws")], ('.') ∉ kw.map jsToLower) ∧
    calculateRelevanceScore c2pos [strL ("react"), strL ("aws")] =
      claimedRelevanceScore c2pos [strL ("react"), strL ("aws")] :=
  ⟨by decide, calculateRelevanceScore_matches_claimed c2pos [strL ("react"), strL ("aws")]
    (by decide)⟩

/-- The concrete project refuting C4: two fragments of exactly 20 characters
(not shorter than 20, as the claim reads) are both discarded by the strict
greater-than-20 filter of the code. -/
def c4proj : Project :=
  { title := strL ("t")
    summary := some (strL ("aaaaaaaaaaaaaaaaaaaa.bbbbbbbbbbbbbbbbbbbb"))
    raw_summary := none }

/-- C4 counterexample: the summary splits into (at least) two fragments of
length exactly 20, satisfying the premise of the claim (fragments not
shorter than 20 characters), yet the code returns 0 bullet points, not 2. -/
theorem generateProjectBulletPoints_boundary_counterexample :
    2 ≤ ((splitOnDotBang (projectEffectiveSummary c4proj)).filter
      (fun f => 20 ≤ f.length)).length ∧
    (generateProjectBulletPoints c4proj).length = 0 := by
  constructor <;> decide

/-- C4 as amended: whenever the summary yields at least 2 fragments whose
*trimmed* length is *strictly greater* than 20 and none of those fragments
is reduced to nothing by the leading-asterisk cleanup (i.e. none consists
solely of asterisks), `generateProjectBulletPoints` returns exactly 2
bullet points. -/
theorem generateProjectBulletPoints_exactly_two (p : Project)
    (h2 : 2 ≤ (projectSentences p).length)
    (hs : ∀ f ∈ projectSentences p, stripLeadingStars (jsTrim f) ≠ []) :
    (generateProjectBulletPoints p).length = 2 := by
  have main : ∀ sel : List (List Char), sel.length = 2 →
      (∀ f ∈ sel, f ∈ projectSentences p) →
      (((sel.map (fun bp => stripLeadingStars (jsTrim bp))).filter
        (fun bp => bp ≠ [])).take 2).length = 2 := by
    intro sel hlen hsub
    have hfil : (sel.map (fun bp => stripLeadingStars (jsTrim bp))).filter
        (fun bp => bp ≠ []) = sel.map (fun bp => stripLeadingStars (jsTrim bp)) := by
      apply List.filter_eq_self.mpr
      intro a ha
      obtain ⟨bp, hbp, rfl⟩ := List.mem_map.mp ha
      exact decide_eq_true (hs bp (hsub bp hbp))
    rw [hfil]
    simp [List.length_take, hlen]
  simp only [generateProjectBulletPoints]
  by_cases htech : 2 ≤ ((projectSentences p).filter techSignal).length
  · rw [if_pos htech]
    apply main
    · simp [List.length_take]
      omega
    · intro f hf
      exact List.mem_of_mem_filter (List.take_subset _ _ hf)
  · rw [if_neg htech]
    apply main
    · simp [List.length_take]
      omega
    · intro f hf
      exact List.take_subset _ _ hf

/-- The concrete project used to instantiate the amended C4. -/
def c4wproj : Project :=
  { title := strL ("t")
    summary := some (strL ("Implemented a fast performance optimization for the server. Development of a scalable architecture across all services."))
    raw_summary := none }

/-- Witness for the amended C4. -/
theorem generateProjectBulletPoints_exactly_two_witness :
    2 ≤ (projectSentences c4wproj).length ∧
    (generateProjectBulletPoints c4wproj).length = 2 :=
  ⟨by decide, generateProjectBulletPoints_exactly_two c4wproj (by decide) (by decide)⟩

/-- A small well-formed template containing all four named regions. -/
def c7template : List Char :=
  mkDoc (strL ("A\n")) (strL ("\n Software Engineer with X years\n")) (strL ("\nB\n"))
    (strL ("\n")) (strL ("\nOLD-EXP\n")) (strL ("\nC\n")) (strL ("\n")) (strL ("\nOLD-PROJ\n"))
    (strL ("\nD\n")) (strL ("\n")) (strL ("\n")) (strL ("OLD-SKILLS")) (strL ("\nE\n"))

/-- An experience block that smuggles a complete Projects region pattern. -/
def c7adversarialBlock : List Char := projComment ++ lsMarker ++ strL ("X") ++ leMarker

/-- C7 counterexample: the claim quantifies over *every* set of rendered
blocks.  With an experience block containing the Projects marker chain, the
Projects replacement matches inside the freshly spliced experience span,
the real Projects region is left untouched, and a stray duplicated
end-marker ends up in the structural markup: the output with the dynamic
spans removed is no longer byte-identical to the template with its spans
removed, even though the template contains all named regions. -/
theorem buildLatexResume_frame_counterexample :
    ((summaryMatch c7template).isSome ∧ (splitFirst expComment c7template).isSome ∧
      (splitFirst projComment c7template).isSome ∧
      (splitFirst skillsComment c7template).isSome) ∧
    stripDynamicRegions (buildLatexResume c7template
        (strL ("Software Engineer with 3 years")) c7adversarialBlock (strL ("PROJB"))
        (strL ("SKB")))
      ≠ stripDynamicRegions c7template := by
  exact ⟨⟨by decide, by decide, by decide, by decide⟩, by decide⟩

/-- Witness for the amended C7 at a concrete well-formed template with
marker-free rendered blocks. -/
theorem buildLatexResume_stripDynamicRegions_frame_witness :
    spliceSafe (strL ("A\n")) (strL ("\n Software Engineer with X years\n")) (strL ("\nB\n"))
      (strL ("\n")) (strL ("\nOLD-EXP\n")) (strL ("\nC\n")) (strL ("\n")) (strL ("\nOLD-PROJ\n"))
      (strL ("\nD\n")) (strL ("\n")) (strL ("\n")) (strL ("OLD-SKILLS")) (strL ("\nE\n"))
      (strL ("Software Engineer with 3 years")) (strL ("EXPB")) (strL ("PROJB")) (strL ("SKB")) ∧
    stripDynamicRegions (buildLatexResume
        (mkDoc (strL ("A\n")) (strL ("\n Software Engineer with X years\n")) (strL ("\nB\n"))
          (strL ("\n")) (strL ("\nOLD-EXP\n")) (strL ("\nC\n")) (strL ("\n")) (strL ("\nOLD-PROJ\n"))
          (strL ("\nD\n")) (strL ("\n")) (strL ("\n")) (strL ("OLD-SKILLS")) (strL ("\nE\n")))
        (strL ("Software Engineer with 3 years")) (strL ("EXPB")) (strL ("PROJB")) (strL ("SKB")))
      = stripDynamicRegions
        (mkDoc (strL ("A\n")) (strL ("\n Software Engineer with X years\n")) (strL ("\nB\n"))
          (strL ("\n")) (strL ("\nOLD-EXP\n")) (strL ("\nC\n")) (strL ("\n")) (strL ("\nOLD-PROJ\n"))
          (strL ("\nD\n")) (strL ("\n")) (strL ("\n")) (strL ("OLD-SKILLS")) (strL ("\nE\n"))) :=
  ⟨by decide,
    buildLatexResume_stripDynamicRegions_frame
      (strL ("A\n")) (strL ("\n Software Engineer with X years\n")) (strL ("\nB\n"))
      (strL ("\n")) (strL ("\nOLD-EXP\n")) (strL ("\nC\n")) (strL ("\n")) (strL ("\nOLD-PROJ\n"))
      (strL ("\nD\n")) (strL ("\n")) (strL ("\n")) (strL ("OLD-SKILLS")) (strL ("\nE\n"))
      (strL ("Software Engineer with 3 years")) (strL ("EXPB")) (strL ("PROJB")) (strL ("SKB"))
      (by decide)⟩

end ResumeAgent
